import Mathlib

/-!
Shallow embedding of the reservation-api conversation-to-booking core
(`app/services/slot_service.py`, `booking_service.py`, `handoff_service.py`,
`chat_service.py`, `chat_nodes.py`, and the public booking-lookup route of
`app/api/v1/public/router.py`).

Modelling conventions:
* Database rows become Lean structures; the SQLAlchemy session becomes an
  explicit `DB` value threaded through the operations.
* `datetime` values are minutes since an epoch midnight (`day * 1440 + minuteOfDay`);
  `date` values are day numbers with `weekday d = d % 7` (day 0 is a Monday,
  matching Python's `date.weekday()` convention 0=Monday).
* Statuses, intents and tracking codes stay the exact strings of the source.
* Code that raises becomes `Except String`; SQLAlchemy's
  `scalar_one_or_none` (raises `MultipleResultsFound` on two or more rows)
  becomes `scalarOneOrNone`.  Lookups on primary-key or unique-constrained
  columns (`Booking.id`, `Booking.public_tracking_id`, `Service.id`,
  `Conversation.id`) are modelled with `List.find?`, since the schema makes
  a second matching row impossible.
* Randomly generated identifiers (UUID primary keys, `BK-`/`HO-` codes, the
  handoff token) are inputs (`Gen`): the source draws them from a CSPRNG and
  retries codes until unused.
* Timestamp bookkeeping columns (`created_at`, `updated_at`, `confirmed_at`,
  `contact_collected_at`, `resolved_at`) are not modelled; no verified claim
  mentions them.  List order of `DB.bookings` / `DB.handoffs` is insertion
  order, which is `created_at` order in the source.
-/

namespace App

/-- Python truthiness for an optional string field (`None` and `""` are falsy). -/
def truthyS : Option String → Bool
  | none => false
  | some s => !s.isEmpty

/-- Python's `a or b` on optional strings: `a` when truthy, otherwise `b`. -/
def orT (a b : Option String) : Option String :=
  if truthyS a then a else b

/-- SQLAlchemy `Result.scalar_one_or_none()`: `none` for no row, the row for
exactly one, and an exception (`MultipleResultsFound`) for two or more. -/
def scalarOneOrNone : List α → Except String (Option α)
  | [] => .ok none
  | [a] => .ok (some a)
  | _ => .error "MultipleResultsFound"

/-- Row of `core.bookings` (`app/models/booking.py`); `service_id` and
`business_id` are non-nullable columns, the slot window and contact are nullable. -/
structure Booking where
  id : Nat
  businessId : Nat
  serviceId : Nat
  conversationId : Option Nat
  publicTrackingId : String
  status : String
  slotStart : Option Nat
  slotEnd : Option Nat
  customerName : Option String
  customerPhone : Option String
  customerEmail : Option String
  deriving Repr, DecidableEq

/-- Row of `core.services` (only the columns the verified code reads). -/
structure Service where
  id : Nat
  businessId : Nat
  serviceName : String
  durationMinutes : Option Nat
  deriving Repr, DecidableEq

/-- Row of `core.business_operating_hours`: one row per weekday, possibly
closed, with nullable open/close times of day (minutes since midnight). -/
structure BusinessOperatingHours where
  businessId : Nat
  dayOfWeek : Nat
  openTime : Option Nat
  closeTime : Option Nat
  isClosed : Bool
  deriving Repr, DecidableEq

/-- Row of `core.business_availability_exceptions` (start/end instants in minutes). -/
structure BusinessAvailabilityException where
  businessId : Nat
  startAt : Nat
  endAt : Nat
  exceptionType : String
  deriving Repr, DecidableEq

/-- Row of `core.conversations` (only the columns the verified code touches). -/
structure Conversation where
  id : Nat
  businessId : Nat
  status : String
  resolutionType : Option String
  outcome : Option String
  deriving Repr, DecidableEq

/-- Row of `core.handoff_requests` (`app/models/other_models.py`). -/
structure HandoffRequest where
  id : Nat
  businessId : Nat
  conversationId : Nat
  bookingId : Option Nat
  publicTicketId : String
  handoffToken : String
  status : String
  reason : String
  contactName : Option String
  contactPhone : Option String
  contactEmail : Option String
  deriving Repr, DecidableEq

/-- The transactional store the services share. -/
structure DB where
  bookings : List Booking
  services : List Service
  operatingHours : List BusinessOperatingHours
  availabilityExceptions : List BusinessAvailabilityException
  conversations : List Conversation
  handoffs : List HandoffRequest
  deriving Repr, DecidableEq

/-- The status list every "non-terminal" query excludes
(`status.notin_(['CANCELLED', 'CANCELED', 'FAILED', 'EXPIRED'])`). -/
def terminalStatuses : List String := ["CANCELLED", "CANCELED", "FAILED", "EXPIRED"]

/-! ## `app/services/slot_service.py` (`SlotService`) -/

/-- The rows `check_slot_available` queries: same service, identical
`slot_start` instant, status not in the terminal list. -/
def slotBookings (db : DB) (serviceId slotStart : Nat) : List Booking :=
  db.bookings.filter fun b =>
    b.serviceId == serviceId && b.slotStart == some slotStart &&
      !(terminalStatuses.contains b.status)

/-- `SlotService.check_slot_available`: available iff no non-terminal booking
exists for the service at this exact start instant (the `slot_end` argument of
the source is unused). -/
def check_slot_available (db : DB) (serviceId slotStart : Nat) :
    Except String Bool := do
  let existing ← scalarOneOrNone (slotBookings db serviceId slotStart)
  return existing.isNone

/-- One step of the slot-generation `while` loop of `get_available_slots`:
`while current_time + slot_duration <= end_of_day: append (current, current+dur)`.
The extra fuel argument only bounds the recursion; with `dur = 0` the source
loop does not terminate (every call site passes the default 60). -/
def genSlotsAux : Nat → Nat → Nat → Nat → List (Nat × Nat)
  | 0, _, _, _ => []
  | fuel + 1, cur, close, dur =>
    if cur + dur ≤ close then (cur, cur + dur) :: genSlotsAux fuel (cur + dur) close dur
    else []

/-- All candidate windows laid from `cur` (the day's opening instant) up to
`close` (the day's closing instant) in steps of `dur` minutes. -/
def genSlots (cur close dur : Nat) : List (Nat × Nat) :=
  genSlotsAux (close + 1) cur close dur

/-- Step 4 of `get_available_slots`: keep the windows whose
`check_slot_available` is true (order preserved; the source then renders the
kept datetimes to ISO strings, which is a bijective formatting step). -/
def filterAvailable (db : DB) (serviceId : Nat) :
    List (Nat × Nat) → Except String (List (Nat × Nat))
  | [] => .ok []
  | s :: rest => do
    let isAvailable ← check_slot_available db serviceId s.1
    let keptRest ← filterAvailable db serviceId rest
    return if isAvailable then s :: keptRest else keptRest

/-- The operating-hours rows `get_available_slots` queries for a business and
a weekday. -/
def hoursRows (db : DB) (businessId dayOfWeek : Nat) : List BusinessOperatingHours :=
  db.operatingHours.filter fun r =>
    r.businessId == businessId && r.dayOfWeek == dayOfWeek

/-- The closure-exception rows `get_available_slots` queries: business matches,
`start_at <= end-of-day`, `end_at >= start-of-day`, type `'CLOSED'`. -/
def closureRows (db : DB) (businessId targetDate : Nat) :
    List BusinessAvailabilityException :=
  db.availabilityExceptions.filter fun e =>
    e.businessId == businessId && e.startAt ≤ targetDate * 1440 + 1439 &&
      targetDate * 1440 ≤ e.endAt && e.exceptionType == "CLOSED"

/-- `SlotService.get_available_slots`: empty when the weekday's hours row is
missing, marked closed, or has a null open/close time; empty when a `'CLOSED'`
exception overlaps the date; otherwise the consecutive `dur`-minute windows
from open to close that `check_slot_available` accepts. -/
def get_available_slots (db : DB) (businessId serviceId targetDate dur : Nat) :
    Except String (List (Nat × Nat)) := do
  let dayOfWeek := targetDate % 7
  let operatingHours ← scalarOneOrNone (hoursRows db businessId dayOfWeek)
  match operatingHours with
  | none => return []
  | some oh =>
    if oh.isClosed then return []
    else
      match oh.openTime, oh.closeTime with
      | some openT, some closeT => do
        let closure ← scalarOneOrNone (closureRows db businessId targetDate)
        if closure.isSome then return []
        else
          let slots := genSlots (targetDate * 1440 + openT) (targetDate * 1440 + closeT) dur
          filterAvailable db serviceId slots
      | _, _ => return []

/-- The sort key of `get_alternative_slots`: absolute distance between a
window's start and the requested instant (the source measures seconds; minutes
give the same ordering). -/
def timeDistance (requested : Nat) (slot : Nat × Nat) : Nat :=
  ((slot.1 : Int) - (requested : Int)).natAbs

/-- Stable insertion into a list sorted by `timeDistance`: the inserted
element goes before later elements with an equal key, matching Python's
stable `list.sort`. -/
def insertByDistance (requested : Nat) (x : Nat × Nat) :
    List (Nat × Nat) → List (Nat × Nat)
  | [] => [x]
  | y :: ys =>
    if timeDistance requested x ≤ timeDistance requested y then x :: y :: ys
    else y :: insertByDistance requested x ys

/-- Stable sort by `timeDistance` (Python's `list.sort(key=time_distance)`:
a stable sort by a total key is a unique function, so any stable
implementation computes the same list). -/
def sortByDistance (requested : Nat) : List (Nat × Nat) → List (Nat × Nat)
  | [] => []
  | x :: xs => insertByDistance requested x (sortByDistance requested xs)

/-- `SlotService.get_alternative_slots`: available windows of the requested
instant's date, extended with the following date when fewer than
`numAlternatives` were found, sorted by distance to the request, first
`numAlternatives` kept. -/
def get_alternative_slots (db : DB) (businessId serviceId requestedSlot numAlternatives : Nat) :
    Except String (List (Nat × Nat)) := do
  let targetDate := requestedSlot / 1440
  let sameDay ← get_available_slots db businessId serviceId targetDate 60
  let allSlots ←
    if sameDay.length < numAlternatives then do
      let tomorrowSlots ← get_available_slots db businessId serviceId (targetDate + 1) 60
      pure (sameDay ++ tomorrowSlots)
    else pure sameDay
  return (sortByDistance requestedSlot allSlots).take numAlternatives

/-- Result record of `validate_and_reserve_slot` (the human-readable
`message` field is not modelled). -/
structure ReserveResult where
  available : Bool
  alternatives : List (Nat × Nat)
  deriving Repr, DecidableEq

/-- `SlotService.validate_and_reserve_slot`: availability check first; on
conflict, look the service up (primary key) and attach up to 5 alternatives
(empty when the service row is missing). -/
def validate_and_reserve_slot (db : DB) (serviceId slotStart : Nat) :
    Except String ReserveResult := do
  let isAvailable ← check_slot_available db serviceId slotStart
  if isAvailable then return { available := true, alternatives := [] }
  else
    match db.services.find? (fun s => s.id == serviceId) with
    | none => return { available := false, alternatives := [] }
    | some service => do
      let alternatives ← get_alternative_slots db service.businessId serviceId slotStart 5
      return { available := false, alternatives := alternatives }

/-! ## `app/services/booking_service.py` (`BookingService`) -/

/-- Primary-key booking lookup (`select(Booking).where(Booking.id == ...)`). -/
def findBookingById (db : DB) (bookingId : Nat) : Option Booking :=
  db.bookings.find? (fun b => b.id == bookingId)

/-- Apply `f` to the (primary-key unique) booking with the given id. -/
def mapBooking (db : DB) (bookingId : Nat) (f : Booking → Booking) : DB :=
  { db with bookings := db.bookings.map fun b => if b.id == bookingId then f b else b }

/-- `BookingService.create_booking`: a fresh row in status `INITIATED`.  The
source draws `public_tracking_id` as `BK-` + 6 random uppercase hex digits and
redraws until it is unused; the drawn id and the fresh primary key arrive here
as arguments. -/
def create_booking (db : DB) (businessId serviceId : Nat)
    (conversationId : Option Nat) (newId : Nat) (trackingId : String) :
    DB × Booking :=
  let booking : Booking :=
    { id := newId, businessId := businessId, serviceId := serviceId,
      conversationId := conversationId, publicTrackingId := trackingId,
      status := "INITIATED", slotStart := none, slotEnd := none,
      customerName := none, customerPhone := none, customerEmail := none }
  ({ db with bookings := db.bookings ++ [booking] }, booking)

/-- `BookingService.update_slot`: store the window and move to `SLOT_SELECTED`;
`ValueError` when the booking id is unknown. -/
def update_slot (db : DB) (bookingId slotStart slotEnd : Nat) :
    Except String DB :=
  match findBookingById db bookingId with
  | none => .error "Booking not found"
  | some _ => .ok <| mapBooking db bookingId fun b =>
      { b with slotStart := some slotStart, slotEnd := some slotEnd,
               status := "SLOT_SELECTED" }

/-- `BookingService.update_contact`: store the contact triple and move to
`CONTACT_COLLECTED`; `ValueError` when the booking id is unknown. -/
def update_contact (db : DB) (bookingId : Nat)
    (customerName customerPhone customerEmail : String) : Except String DB :=
  match findBookingById db bookingId with
  | none => .error "Booking not found"
  | some _ => .ok <| mapBooking db bookingId fun b =>
      { b with customerName := some customerName,
               customerPhone := some customerPhone,
               customerEmail := some customerEmail,
               status := "CONTACT_COLLECTED" }

/-- `BookingService.confirm_booking`: set `CONFIRMED` unconditionally (the
only check in the source is that the booking id exists). -/
def confirm_booking (db : DB) (bookingId : Nat) : Except String DB :=
  match findBookingById db bookingId with
  | none => .error "Booking not found"
  | some _ => .ok <| mapBooking db bookingId fun b => { b with status := "CONFIRMED" }

/-- `BookingService.get_booking` (the source returns a dict of the row's
columns plus the service name; the row carries the same information). -/
def get_booking (db : DB) (bookingId : Nat) : Option Booking :=
  findBookingById db bookingId

/-- `BookingService.get_booking_by_conversation`: the most recently created
booking of the conversation whose status is not terminal (`order_by created
desc` + `first()`; list order is creation order, so the last match is taken). -/
def get_booking_by_conversation (db : DB) (conversationId : Nat) : Option Booking :=
  (db.bookings.filter fun b =>
      b.conversationId == some conversationId &&
        !(terminalStatuses.contains b.status)).getLast?

/-- `BookingService.get_booking_by_tracking_id`: exact match on the unique
`public_tracking_id` column — no case normalisation happens here. -/
def get_booking_by_tracking_id (db : DB) (trackingId : String) : Option Booking :=
  db.bookings.find? (fun b => b.publicTrackingId == trackingId)

/-- `BookingService.cancel_booking`: refuse an already-cancelled booking,
otherwise set `CANCELLED`. -/
def cancel_booking (db : DB) (bookingId : Nat) : Except String DB :=
  match findBookingById db bookingId with
  | none => .error "Booking not found"
  | some booking =>
    if ["CANCELLED", "CANCELED"].contains booking.status then
      .error "Booking is already cancelled"
    else
      .ok <| mapBooking db bookingId fun b => { b with status := "CANCELLED" }

/-- `BookingService.cancel_booking_by_tracking_id`: exact-match lookup on the
tracking code, then the same already-cancelled refusal. -/
def cancel_booking_by_tracking_id (db : DB) (trackingId : String) :
    Except String DB :=
  match get_booking_by_tracking_id db trackingId with
  | none => .error ("Booking not found: " ++ trackingId)
  | some booking =>
    if ["CANCELLED", "CANCELED"].contains booking.status then
      .error "Booking is already cancelled"
    else
      .ok <| mapBooking db booking.id fun b => { b with status := "CANCELLED" }

/-- `BookingService.reschedule_booking`: refused only for statuses
`CANCELLED`, `CANCELED` and `FAILED` (the source's list does not include
`EXPIRED`); otherwise the window is replaced and the status becomes
`RESCHEDULED`. -/
def reschedule_booking (db : DB) (bookingId newSlotStart newSlotEnd : Nat) :
    Except String DB :=
  match findBookingById db bookingId with
  | none => .error "Booking not found"
  | some booking =>
    if ["CANCELLED", "CANCELED", "FAILED"].contains booking.status then
      .error "Cannot reschedule a cancelled or failed booking"
    else
      .ok <| mapBooking db bookingId fun b =>
        { b with slotStart := some newSlotStart, slotEnd := some newSlotEnd,
                 status := "RESCHEDULED" }

/-- `BookingService.reschedule_booking_by_tracking_id`: exact-match lookup,
then `reschedule_booking`. -/
def reschedule_booking_by_tracking_id (db : DB) (trackingId : String)
    (newSlotStart newSlotEnd : Nat) : Except String DB :=
  match get_booking_by_tracking_id db trackingId with
  | none => .error ("Booking not found: " ++ trackingId)
  | some booking => reschedule_booking db booking.id newSlotStart newSlotEnd

/-! ## `app/api/v1/public/router.py` — public booking lookup -/

/-- ASCII uppercasing of one character (what Python's `str.upper()` does on
the ASCII tracking codes). -/
def upperChar (c : Char) : Char :=
  if c.isLower then Char.ofNat (c.toNat - 32) else c

/-- Python's `str.upper()` restricted to ASCII strings. -/
def pyUpper (s : String) : String := ⟨s.data.map upperChar⟩

/-- ASCII lowercasing of one character (what Python's `str.lower()` does on
the ASCII service names). -/
def lowerChar (c : Char) : Char :=
  if c.isUpper then Char.ofNat (c.toNat + 32) else c

/-- Python's `str.lower()` restricted to ASCII strings. -/
def pyLower (s : String) : String := ⟨s.data.map lowerChar⟩

/-- `GET /bookings/{tracking_id}` of the public router: unlike the service
layer, it uppercases the supplied code before the exact match
(`Booking.public_tracking_id == tracking_id.upper()`). -/
def router_get_booking_by_tracking_id (db : DB) (trackingId : String) :
    Option Booking :=
  db.bookings.find? (fun b => b.publicTrackingId == pyUpper trackingId)

/-! ## `app/services/handoff_service.py` (`HandoffService`) -/

/-- `HandoffService.create_handoff`: append an `OPEN` handoff (ticket code and
secret token are collision-retried random draws, passed in here), and in the
same operation mark the owning conversation `RESOLVED` with resolution type
`HUMAN_ESCALATED` and outcome `ESCALATED` (when the conversation row exists). -/
def create_handoff (db : DB) (businessId conversationId : Nat) (reason : String)
    (contactName contactPhone contactEmail : Option String)
    (bookingId : Option Nat) (newId : Nat) (ticketId token : String) :
    DB × HandoffRequest :=
  let handoff : HandoffRequest :=
    { id := newId, businessId := businessId, conversationId := conversationId,
      bookingId := bookingId, publicTicketId := ticketId, handoffToken := token,
      status := "OPEN", reason := reason, contactName := contactName,
      contactPhone := contactPhone, contactEmail := contactEmail }
  let conversations := db.conversations.map fun c =>
    if c.id == conversationId then
      { c with status := "RESOLVED", resolutionType := some "HUMAN_ESCALATED",
               outcome := some "ESCALATED" }
    else c
  ({ db with handoffs := db.handoffs ++ [handoff], conversations := conversations },
   handoff)

/-- `HandoffService.get_handoff_by_conversation`: most recent handoff of the
conversation (`order_by created desc` + `first()`). -/
def get_handoff_by_conversation (db : DB) (conversationId : Nat) :
    Option HandoffRequest :=
  (db.handoffs.filter fun h => h.conversationId == conversationId).getLast?

/-! ## `app/services/chat_service.py` — end-of-turn conversation update -/

/-- The conversation update `send_message` performs after every processed
turn (its last lines before commit): when the turn did not signal escalation,
the conversation status is set to `IN_PROGRESS` — unconditionally, even if the
conversation was already `RESOLVED`. -/
def update_conversation_after_turn (db : DB) (conversationId : Nat)
    (needsEscalation : Bool) : DB :=
  { db with conversations := db.conversations.map fun c =>
      if c.id == conversationId then
        if needsEscalation then c else { c with status := "IN_PROGRESS" }
      else c }

/-! ## `app/services/chat_state.py` / `chat_nodes.py` — conversation-scoped state -/

/-- The `BookingState` TypedDict fields the verified code reads or writes.
ISO datetime strings (`selected_slot_start`) are modelled by their parsed
minute value; an absent dict key is `none`.  (`response`/`next_action` text is
not modelled.) -/
structure ChatState where
  availableServices : List (Nat × String)
  selectedServiceId : Option Nat
  selectedServiceName : Option String
  selectedSlotStart : Option Nat
  customerName : Option String
  customerPhone : Option String
  customerEmail : Option String
  bookingId : Option Nat
  publicTrackingId : Option String
  bookingStatus : Option String
  mentionedBookingId : Option String
  bookingToCancel : Option String
  slotUnavailable : Bool
  slotAlternatives : List (Nat × Nat)
  needsEscalation : Bool
  handoffId : Option Nat
  handoffTicketId : Option String
  parsedIntent : String
  deriving Repr, DecidableEq

/-- The structured result of the NLU oracle as `parse_message_node` reads it
(`intent`, `service_mentioned`, `date_mentioned`/`time_mentioned` already
parsed to day number / minute of day, `contact_info`, `wants_human`,
`booking_id_mentioned`). -/
structure Extraction where
  intent : Option String
  serviceMentioned : Option String
  dateMentioned : Option Nat
  timeMentioned : Option Nat
  contactName : Option String
  contactPhone : Option String
  contactEmail : Option String
  wantsHuman : Bool
  bookingIdMentioned : Option String
  deriving Repr, DecidableEq

/-- Service resolution of `parse_message_node`: a mentioned name is matched
case-insensitively against the live catalog; unmatched names are dropped, not
guessed. -/
def applyServiceMentioned (st : ChatState) (e : Extraction) : ChatState :=
  match e.serviceMentioned with
  | some name =>
    if name.isEmpty then st
    else
      match st.availableServices.find? (fun s => pyLower s.2 == pyLower name) with
      | some s => { st with selectedServiceId := some s.1,
                            selectedServiceName := some s.2 }
      | none => st
  | none => st

/-- Slot resolution of `parse_message_node`: date+time combine; a date alone
stores noon of that date; a time alone stores nothing. -/
def applySlotMentioned (st : ChatState) (e : Extraction) : ChatState :=
  match e.dateMentioned, e.timeMentioned with
  | some d, some t => { st with selectedSlotStart := some (d * 1440 + t) }
  | some d, none => { st with selectedSlotStart := some (d * 1440 + 720) }
  | none, _ => st

/-- Contact accumulation of `parse_message_node`: truthy fields overwrite. -/
def applyContactInfo (st : ChatState) (e : Extraction) : ChatState :=
  let st := if truthyS e.contactName then { st with customerName := e.contactName } else st
  let st := if truthyS e.contactPhone then { st with customerPhone := e.contactPhone } else st
  if truthyS e.contactEmail then { st with customerEmail := e.contactEmail } else st

/-- Escalation flag of `parse_message_node`: `wants_human` raises
`needs_escalation` (and nothing lowers it). -/
def applyWantsHuman (st : ChatState) (e : Extraction) : ChatState :=
  if e.wantsHuman then { st with needsEscalation := true } else st

/-- Tracking-code capture of `parse_message_node`. -/
def applyMentionedBookingId (st : ChatState) (e : Extraction) : ChatState :=
  if truthyS e.bookingIdMentioned then { st with mentionedBookingId := e.bookingIdMentioned }
  else st

/-- The whole state-update half of `parse_message_node`, in source order. -/
def apply_extraction (st : ChatState) (e : Extraction) : ChatState :=
  applyMentionedBookingId
    (applyWantsHuman
      (applyContactInfo
        (applySlotMentioned
          (applyServiceMentioned { st with parsedIntent := e.intent.getD "other" } e) e) e) e) e

/-- `chat_nodes.route_after_parse`: the conditional edge after parsing.  The
escalation signal is checked before the intent dispatch. -/
def route_after_parse (st : ChatState) : String :=
  if st.needsEscalation then "escalate_node"
  else if st.parsedIntent == "greet" then "greet_node"
  else if st.parsedIntent == "list_services" then "list_services_node"
  else if st.parsedIntent == "select_service" then "handle_service_selection_node"
  else if st.parsedIntent == "ask_service_details" then "show_service_details_node"
  else if st.parsedIntent == "select_slot" then "handle_slot_selection_node"
  else if st.parsedIntent == "provide_contact" then "handle_contact_node"
  else if st.parsedIntent == "confirm_booking" then "confirm_booking_node"
  else if st.parsedIntent == "complete_booking" then "confirm_booking_node"
  else if st.parsedIntent == "check_status" then "check_status_node"
  else if st.parsedIntent == "cancel_booking" then "cancel_booking_node"
  else if st.parsedIntent == "confirm_cancel" then "confirm_cancel_node"
  else if st.parsedIntent == "reschedule" then "reschedule_node"
  else if st.parsedIntent == "escalate" then "escalate_node"
  else "general_response_node"

/-! ## `app/services/chat_service.py` — `_handle_special_intents` -/

/-- `ChatService._handle_special_intents` is modelled by its two
database-writing branches in source order (`handle_special_intents` below);
the `check_status` branch only reads.  This is the `confirm_cancel` branch:
cancel by tracking code, a `ValueError` caught and turned into response text.
The `reschedule` branch requires a freshly-or-previously mentioned tracking
code plus a new slot instant; its window end is hard-coded to start + 60
minutes (`timedelta(hours=1)`), and a `ValueError` is likewise caught. -/
def handleConfirmCancelIntent (db : DB) (oldState resultState : ChatState) :
    DB × ChatState :=
  let mentionedBookingId := orT resultState.mentionedBookingId oldState.mentionedBookingId
  if resultState.parsedIntent == "confirm_cancel" then
    match orT mentionedBookingId (orT oldState.publicTrackingId resultState.bookingToCancel) with
    | some trackingId =>
      if trackingId.isEmpty then (db, resultState)
      else
        match cancel_booking_by_tracking_id db trackingId with
        | .ok db1 => (db1, { resultState with bookingStatus := some "CANCELLED" })
        | .error _ => (db, resultState)
    | none => (db, resultState)
  else (db, resultState)

/-- The `reschedule` branch of `_handle_special_intents` (the mentioned
tracking code and the intent are fields the cancel branch never writes, so
re-reading them here matches the source's single up-front binding). -/
def handleRescheduleIntent (db : DB) (oldState resultState : ChatState) :
    DB × ChatState :=
  let mentionedBookingId := orT resultState.mentionedBookingId oldState.mentionedBookingId
  if resultState.parsedIntent == "reschedule" && truthyS mentionedBookingId then
    match mentionedBookingId, resultState.selectedSlotStart with
    | some trackingId, some slotStart =>
      let slotEnd := slotStart + 60
      match reschedule_booking_by_tracking_id db trackingId slotStart slotEnd with
      | .ok db1 => (db1, { resultState with bookingStatus := some "RESCHEDULED" })
      | .error _ => (db, resultState)
    | _, _ => (db, resultState)
  else (db, resultState)

/-- The two database-writing branches in source order. -/
def handle_special_intents (db : DB) (oldState resultState : ChatState) :
    DB × ChatState :=
  let r1 := handleConfirmCancelIntent db oldState resultState
  handleRescheduleIntent r1.1 oldState r1.2

/-! ## `app/services/chat_service.py` — `_handle_booking_actions` -/

/-- The random identifiers a turn may consume (fresh primary keys, the
collision-retried `BK-`/`HO-` codes and the handoff token). -/
structure Gen where
  bookingPk : Nat
  bookingTracking : String
  handoffPk : Nat
  handoffTicket : String
  handoffToken : String
  deriving Repr, DecidableEq

/-- Step 1 of `_handle_booking_actions`: create a booking when a service is
selected and the conversation had no active booking. -/
def handle_step1 (db : DB) (conversationId businessId : Nat)
    (oldState newState : ChatState) (gen : Gen) : DB × ChatState :=
  if newState.selectedServiceId.isSome && !oldState.bookingId.isSome then
    match newState.selectedServiceId with
    | some serviceId =>
      let (db1, booking) :=
        create_booking db businessId serviceId (some conversationId)
          gen.bookingPk gen.bookingTracking
      (db1, { newState with bookingId := some booking.id,
                            publicTrackingId := some booking.publicTrackingId })
    | none => (db, newState)
  else (db, newState)

/-- Step 2 of `_handle_booking_actions`: when a slot was provided, differs
from the previously recorded one, and the intent is not `reschedule`, run
`validate_and_reserve_slot` and on success persist the window (end hard-coded
to start + 60 minutes); on conflict flag `slot_unavailable`, surface the
alternatives and drop the attempted slot.  The `try`/`except` of the source
catches `update_slot`'s unknown-booking `ValueError` (skipping the rest of the
block); a `MultipleResultsFound` from the availability query is not caught. -/
def handle_step2 (db : DB) (oldState newState : ChatState)
    (bookingId : Option Nat) : Except String (DB × ChatState) :=
  match newState.selectedSlotStart with
  | none => .ok (db, newState)
  | some slotStart =>
    if newState.selectedSlotStart == oldState.selectedSlotStart ||
        newState.parsedIntent == "reschedule" then
      .ok (db, newState)
    else
      let slotEnd := slotStart + 60
      match newState.selectedServiceId <|> oldState.selectedServiceId, bookingId with
      | some serviceId, some bId => do
        let slotCheck ← validate_and_reserve_slot db serviceId slotStart
        if slotCheck.available then
          match update_slot db bId slotStart slotEnd with
          | .ok db1 => .ok (db1, { newState with bookingStatus := some "SLOT_SELECTED" })
          | .error _ => .ok (db, newState)
        else
          .ok (db, { newState with slotUnavailable := true,
                                   slotAlternatives := slotCheck.alternatives,
                                   selectedSlotStart := none })
      | _, _ => .ok (db, newState)

/-- Step 3 of `_handle_booking_actions`: persist the contact triple when all
three fields are truthy and at least one differs from the old state
(`update_contact`'s unknown-booking `ValueError` is not caught here). -/
def handle_step3 (db : DB) (oldState newState : ChatState)
    (bookingId : Option Nat) : Except String (DB × ChatState) :=
  match bookingId, newState.customerName, newState.customerPhone, newState.customerEmail with
  | some bId, some name, some phone, some email =>
    if !name.isEmpty && !phone.isEmpty && !email.isEmpty then
      if newState.customerName != oldState.customerName ||
          newState.customerPhone != oldState.customerPhone ||
          newState.customerEmail != oldState.customerEmail then do
        let db1 ← update_contact db bId name phone email
        .ok (db1, { newState with bookingStatus := some "CONTACT_COLLECTED" })
      else .ok (db, newState)
    else .ok (db, newState)
  | _, _, _, _ => .ok (db, newState)

/-- Step 4 of `_handle_booking_actions`: the confirmation decision.
`has_service` is always true (`service_id` is a non-nullable column, so the
dict value is never `None`); the `confirm_booking`-intent path checks only
that the stored status is `CONTACT_COLLECTED`, the `complete_booking` and
single-message paths additionally require the slot and contact to be present. -/
def handle_step4 (db : DB) (oldState newState : ChatState)
    (bookingId : Option Nat) : Except String (DB × ChatState) :=
  match bookingId with
  | none => .ok (db, newState)
  | some bId =>
    match get_booking db bId with
    | none => .ok (db, newState)
    | some booking =>
      let hasService := true
      let hasSlot := booking.slotStart.isSome
      let hasContact := truthyS booking.customerName &&
        truthyS booking.customerPhone && truthyS booking.customerEmail
      let allDataInOneMessage := newState.selectedServiceId.isSome &&
        newState.selectedSlotStart.isSome && truthyS newState.customerName &&
        truthyS newState.customerPhone && truthyS newState.customerEmail &&
        !oldState.bookingId.isSome
      let shouldConfirm :=
        (newState.parsedIntent == "confirm_booking" && booking.status == "CONTACT_COLLECTED") ||
        (newState.parsedIntent == "complete_booking" && hasService && hasSlot && hasContact) ||
        (allDataInOneMessage && hasService && hasSlot && hasContact)
      if shouldConfirm && booking.status != "CONFIRMED" then do
        let db1 ← confirm_booking db bId
        .ok (db1, { newState with bookingStatus := some "CONFIRMED" })
      else .ok (db, newState)

/-- Step 5 of `_handle_booking_actions`: escalation.  A handoff is created
only when the turn signalled escalation, the conversation had no handoff yet
(`old_state` carries the existing one), and at least one contact field is
truthy — with no contact information known, no handoff is created. -/
def handle_step5 (db : DB) (conversationId businessId : Nat)
    (oldState newState : ChatState) (bookingId : Option Nat) (gen : Gen) :
    DB × ChatState :=
  if newState.needsEscalation && !oldState.handoffId.isSome then
    let contactName := orT newState.customerName oldState.customerName
    let contactPhone := orT newState.customerPhone oldState.customerPhone
    let contactEmail := orT newState.customerEmail oldState.customerEmail
    if truthyS contactName || truthyS contactPhone || truthyS contactEmail then
      let (db1, handoff) :=
        create_handoff db businessId conversationId "User requested human assistance"
          contactName contactPhone contactEmail bookingId
          gen.handoffPk gen.handoffTicket gen.handoffToken
      (db1, { newState with handoffId := some handoff.id,
                            handoffTicketId := some handoff.publicTicketId })
    else (db, newState)
  else (db, newState)

/-- `ChatService._handle_booking_actions`: the five reconciliation steps in
source order, sharing the `booking_id = new_state.get("booking_id") or
old_state.get("booking_id")` binding computed after step 1. -/
def handle_booking_actions (db : DB) (conversationId businessId : Nat)
    (oldState newState : ChatState) (gen : Gen) :
    Except String (DB × ChatState) := do
  let (db1, st1) := handle_step1 db conversationId businessId oldState newState gen
  let bookingId := st1.bookingId <|> oldState.bookingId
  let (db2, st2) ← handle_step2 db1 oldState st1 bookingId
  let (db3, st3) ← handle_step3 db2 oldState st2 bookingId
  let (db4, st4) ← handle_step4 db3 oldState st3 bookingId
  return handle_step5 db4 conversationId businessId oldState st4 bookingId gen

/-! ## Specification-side definitions (the claims' vocabulary) -/

/-- The spec's terminal statuses: `{CANCELLED, FAILED, EXPIRED}` (§3/§8; the
source's exclusion lists additionally carry the alternate spelling
`CANCELED`, which no code path ever writes). -/
def claimTerminalStatuses : List String := ["CANCELLED", "FAILED", "EXPIRED"]

/-- The bookings that make a window unavailable in the claims' words: same
service, slot start exactly the window's start, status outside the spec's
terminal set. -/
def claimBlockingBookings (db : DB) (serviceId slotStart : Nat) : List Booking :=
  db.bookings.filter fun b =>
    b.serviceId == serviceId && b.slotStart == some slotStart &&
      !(claimTerminalStatuses.contains b.status)

/-- Claim language: a window is available when no non-terminal booking sits at
exactly its start instant. -/
def claimAvailable (db : DB) (serviceId : Nat) (w : Nat × Nat) : Bool :=
  (claimBlockingBookings db serviceId w.1).isEmpty

/-- Claim language: the consecutive fixed-length windows laid from the opening
instant to the closing instant — `(close - open) / dur` of them. -/
def consecutiveWindows (openInstant closeInstant dur : Nat) : List (Nat × Nat) :=
  (List.range ((closeInstant - openInstant) / dur)).map fun k =>
    (openInstant + dur * k, openInstant + dur * (k + 1))

/-- No stored booking uses the alternate spelling `CANCELED` (no code path in
the repository ever writes it; only the status enum declares it). -/
def noCanceledSpelling (db : DB) : Bool :=
  db.bookings.all fun b => b.status != "CANCELED"

/-- The window starts `get_available_slots` would probe for a date (empty when
the hours row is missing/closed/null-valued). -/
def windowStartsForDate (db : DB) (businessId targetDate : Nat) : List Nat :=
  match (hoursRows db businessId (targetDate % 7)).head? with
  | none => []
  | some oh =>
    if oh.isClosed then []
    else
      match oh.openTime, oh.closeTime with
      | some openT, some closeT =>
        (genSlots (targetDate * 1440 + openT) (targetDate * 1440 + closeT) 60).map Prod.fst
      | _, _ => []

/-- Store well-formedness for one date's availability computation: each
`scalar_one_or_none` query of `get_available_slots`/`check_slot_available`
finds at most one row (one hours row per weekday — the model's documented
shape —, at most one overlapping closure, no already-double-booked window). -/
def availQueriesOk (db : DB) (businessId serviceId targetDate : Nat) : Bool :=
  decide ((hoursRows db businessId (targetDate % 7)).length ≤ 1) &&
  decide ((closureRows db businessId targetDate).length ≤ 1) &&
  (windowStartsForDate db businessId targetDate).all fun s =>
    decide ((slotBookings db serviceId s).length ≤ 1)

/-- What `get_available_slots db businessId serviceId d 60` returns when its
queries are single-valued (proved as `get_available_slots_eq`). -/
def availListSpec (db : DB) (businessId serviceId targetDate : Nat) : List (Nat × Nat) :=
  match (hoursRows db businessId (targetDate % 7)).head? with
  | none => []
  | some oh =>
    if oh.isClosed then []
    else
      match oh.openTime, oh.closeTime with
      | some openT, some closeT =>
        if (closureRows db businessId targetDate).isEmpty then
          (genSlots (targetDate * 1440 + openT) (targetDate * 1440 + closeT) 60).filter
            fun w => (slotBookings db serviceId w.1).isEmpty
        else []
      | _, _ => []

/-- Pairwise-distinct booking primary keys (guaranteed by the store). -/
def distinctIdList : List Nat → Bool
  | [] => true
  | i :: rest => rest.all (fun j => j != i) && distinctIdList rest

/-- The bookings table carries pairwise-distinct primary keys. -/
def distinctBookingIds (db : DB) : Bool :=
  distinctIdList (db.bookings.map (fun b => b.id))

/-- No booking of the store sits at this service/start pair with a
non-terminal status more than once — the claims' "no double-booking"
invariant, phrased checkably over the finitely many realised pairs. -/
def noDoubleBooking (db : DB) : Bool :=
  db.bookings.all fun b =>
    match b.slotStart with
    | none => true
    | some s => decide ((slotBookings db b.serviceId s).length ≤ 1)


/-- Relates the stores before and after one turn phase: every booking row
either keeps its slot window unchanged, or had it rewritten to a window of
exactly start + 60 minutes. -/
def slotWrites60 (db db' : DB) : Prop :=
  ∀ b ∈ db.bookings, ∀ b' ∈ db'.bookings, b'.id = b.id →
    (b'.slotStart = b.slotStart ∧ b'.slotEnd = b.slotEnd) ∨
    (∃ s, b'.slotStart = some s ∧ b'.slotEnd = some (s + 60))

/-! ## Concrete stores and states used by the counterexamples and witnesses -/

/-- The catalogued service all scenario stores share. -/
def svcHaircut : Service :=
  { id := 1,
    businessId := 1,
    serviceName := "Haircut",
    durationMinutes := some 60 }

/-- A fresh conversation row. -/
def convRow : Conversation :=
  { id := 1,
    businessId := 1,
    status := "IN_PROGRESS",
    resolutionType := none,
    outcome := none }

/-- Monday (weekday 0) operating hours 09:00-18:00 for business 1. -/
def mondayHours : BusinessOperatingHours :=
  { businessId := 1,
    dayOfWeek := 0,
    openTime := some 540,
    closeTime := some 1080,
    isClosed := false }

/-- Booking-row template: `INITIATED`, no slot, no contact. -/
def bkRow (bid : Nat) (tracking : String) : Booking :=
  { id := bid,
    businessId := 1,
    serviceId := 1,
    conversationId := some bid,
    publicTrackingId := tracking,
    status := "INITIATED",
    slotStart := none,
    slotEnd := none,
    customerName := none,
    customerPhone := none,
    customerEmail := none }

/-- An empty conversation-scoped state (all dict keys absent / defaults). -/
def emptyState : ChatState :=
  { availableServices := [(1, "Haircut")],
    selectedServiceId := none,
    selectedServiceName := none,
    selectedSlotStart := none,
    customerName := none,
    customerPhone := none,
    customerEmail := none,
    bookingId := none,
    publicTrackingId := none,
    bookingStatus := none,
    mentionedBookingId := none,
    bookingToCancel := none,
    slotUnavailable := false,
    slotAlternatives := [],
    needsEscalation := false,
    handoffId := none,
    handoffTicketId := none,
    parsedIntent := "other" }

/-- Unused-by-the-scenario fresh identifiers. -/
def genA : Gen :=
  { bookingPk := 99,
    bookingTracking := "BK-ZZZZZZ",
    handoffPk := 98,
    handoffTicket := "HO-ZZZZZZ",
    handoffToken := "tok" }

/-- A booking that collected service and contact but never a slot:
status `CONTACT_COLLECTED`, `slot_start` null. -/
def bkContactNoSlot : Booking :=
  { bkRow 1 "BK-AAAAAA" with
    status := "CONTACT_COLLECTED",
    customerName := some "Jane",
    customerPhone := some "555-1234",
    customerEmail := some "jane@x.com" }

/-- The store holding only `bkContactNoSlot`. -/
def dbC1 : DB :=
  { bookings := [bkContactNoSlot],
    services := [svcHaircut],
    operatingHours := [],
    availabilityExceptions := [],
    conversations := [convRow],
    handoffs := [] }

/-- The conversation state `send_message` seeds from `dbC1`'s booking. -/
def oldStateC1 : ChatState :=
  { emptyState with
    bookingId := some 1,
    publicTrackingId := some "BK-AAAAAA",
    selectedServiceId := some 1,
    selectedServiceName := some "Haircut",
    customerName := some "Jane",
    customerPhone := some "555-1234",
    customerEmail := some "jane@x.com",
    bookingStatus := some "CONTACT_COLLECTED" }

/-- The same state after a turn whose routed intent is `confirm_booking`
(no new slot, service or contact extracted). -/
def newStateC1 : ChatState := { oldStateC1 with parsedIntent := "confirm_booking" }

/-- Two conversations, each with an `INITIATED` booking for service 1 and no
slot yet: the store both racing turns read before either writes. -/
def dbC2 : DB :=
  { bookings := [bkRow 1 "BK-AAAAAA", bkRow 2 "BK-BBBBBB"],
    services := [svcHaircut],
    operatingHours := [],
    availabilityExceptions := [],
    conversations := [],
    handoffs := [] }

/-- Monday hours 09:00-18:00 plus one `CONFIRMED` booking of service 1 at
day 0, 10:00 — the `demo-salon` scenario store. -/
def dbC3 : DB :=
  { bookings := [{ bkRow 1 "BK-CCCCCC" with
      status := "CONFIRMED",
      slotStart := some 600,
      slotEnd := some 660 }],
    services := [svcHaircut],
    operatingHours := [mondayHours],
    availabilityExceptions := [],
    conversations := [],
    handoffs := [] }

/-- Like `dbC3` but the conflicting booking sits at 09:00 (start 540), the
instant the reservation request will ask for. -/
def dbC4 : DB :=
  { dbC3 with bookings := [{ bkRow 1 "BK-CCCCCC" with
      status := "CONFIRMED",
      slotStart := some 540,
      slotEnd := some 600 }] }

/-- A store whose single booking carries the terminal status `EXPIRED`. -/
def dbC5 : DB :=
  { dbC3 with bookings := [{ bkRow 1 "BK-EEEEEE" with
      status := "EXPIRED",
      slotStart := some 540,
      slotEnd := some 600 }] }

/-- A `CANCELLED` booking at 09:00 (for the refusal witness). -/
def bkCancelled : Booking :=
  { bkRow 1 "BK-FFFFFF" with
    status := "CANCELLED",
    slotStart := some 540,
    slotEnd := some 600 }

/-- A store whose single booking is `CANCELLED` (for the refusal witness). -/
def dbC5w : DB :=
  { dbC3 with bookings := [bkCancelled] }

/-- A conversation with no booking, no handoff and no known contact fields. -/
def dbC6 : DB :=
  { bookings := [],
    services := [],
    operatingHours := [],
    availabilityExceptions := [],
    conversations := [convRow],
    handoffs := [] }

/-- An escalation-signalling turn state with no contact information at all. -/
def newStateC6 : ChatState :=
  { emptyState with needsEscalation := true, parsedIntent := "escalate" }

/-- A fresh conversation row, as it stands before any escalation. -/
def dbC8 : DB := dbC6

/-- `dbC8` right after `create_handoff` for conversation 1. -/
def dbC8afterHandoff : DB :=
  (create_handoff dbC8 1 1 "User requested human assistance" (some "Jane")
    none none none 7 "HO-AAAAAA" "tok").1

/-- A confirmed booking carrying the (uppercase, as generated) tracking code
`BK-A1B2C3`. -/
def bkTracked : Booking :=
  { bkRow 1 "BK-A1B2C3" with
    status := "CONFIRMED",
    slotStart := some 540,
    slotEnd := some 600 }

/-- A store holding only `bkTracked`. -/
def dbC9 : DB :=
  { dbC3 with bookings := [bkTracked] }

/-- `convRow` as `create_handoff` rewrites it. -/
def convResolved : Conversation :=
  { convRow with
    status := "RESOLVED",
    resolutionType := some "HUMAN_ESCALATED",
    outcome := some "ESCALATED" }

/-- A store with one slotless `INITIATED` booking, ready for a slot write. -/
def dbC10 : DB :=
  { dbC3 with bookings := [bkRow 1 "BK-GGGGGG"] }

/-- A turn state selecting the 13:00 slot of day 0 for service 1. -/
def newStateC10 : ChatState :=
  { emptyState with
    selectedServiceId := some 1,
    selectedSlotStart := some 780,
    bookingId := some 1,
    parsedIntent := "select_slot" }

/-- An oracle extraction that both routes an intent (`cancel_booking`) and
signals `wants_human`. -/
def extractionWantsHuman : Extraction :=
  { intent := some "cancel_booking",
    serviceMentioned := none,
    dateMentioned := none,
    timeMentioned := none,
    contactName := none,
    contactPhone := none,
    contactEmail := none,
    wantsHuman := true,
    bookingIdMentioned := none }

/-- `newStateC6` with one contact field known. -/
def newStateC6contact : ChatState := { newStateC6 with customerName := some "Jane" }

/-! ## Helper lemmas -/

/-- In a list with pairwise-distinct `id`s, two members with the same `id`
are the same row. -/
theorem eq_of_mem_of_distinct {l : List Booking} (hd : distinctIdList (l.map fun b => b.id) = true)
    {b c : Booking} (hb : b ∈ l) (hc : c ∈ l) (hid : b.id = c.id) : b = c := by
  induction l with
  | nil => cases hb
  | cons x xs ih =>
    simp only [List.map_cons, distinctIdList, Bool.and_eq_true, List.all_eq_true] at hd
    rcases List.mem_cons.mp hb with rfl | hb' <;> rcases List.mem_cons.mp hc with rfl | hc'
    · rfl
    · exfalso
      have hx := hd.1 c.id (List.mem_map_of_mem (fun b => b.id) hc')
      simp [← hid] at hx
    · exfalso
      have hx := hd.1 b.id (List.mem_map_of_mem (fun b => b.id) hb')
      simp [hid] at hx
    · exact ih hd.2 hb' hc' 

/-! ## Theorems for the claims -/

/-- C5 (counterexample): the claim says rescheduling a terminal-status booking
always fails and leaves the booking unchanged; but for the terminal status
`EXPIRED` (which the source's refusal list omits) the reschedule succeeds and
rewrites the slot window and status. -/
theorem reschedule_expired_succeeds_counterexample :
    dbC5.bookings.map (fun b => b.status) = ["EXPIRED"] ∧
    (reschedule_booking dbC5 1 600 660).map
        (fun db => db.bookings.map fun b => (b.status, b.slotStart, b.slotEnd)) =
      .ok [("RESCHEDULED", some 600, some 660)] :=
  ⟨rfl, rfl⟩

/-- C5 (amended): rescheduling is refused, with an error and no mutation, for
the statuses the source actually lists — `CANCELLED`, `CANCELED`, `FAILED` —
while `EXPIRED` bookings are rescheduled normally. -/
theorem reschedule_refuses_cancelled_failed (db : DB) (bookingId newStart newEnd : Nat)
    (b : Booking) (hfind : findBookingById db bookingId = some b)
    (hstatus : ["CANCELLED", "CANCELED", "FAILED"].contains b.status = true) :
    reschedule_booking db bookingId newStart newEnd =
      .error "Cannot reschedule a cancelled or failed booking" := by
  have hmem : b.status = "CANCELLED" ∨ b.status = "CANCELED" ∨ b.status = "FAILED" := by
    simpa using hstatus
  rcases hmem with h | h | h <;> simp [reschedule_booking, hfind, h]

/-- Witness for `reschedule_refuses_cancelled_failed`: a `CANCELLED` booking. -/
theorem reschedule_refuses_cancelled_failed_witness :
    reschedule_booking dbC5w 1 600 660 =
      .error "Cannot reschedule a cancelled or failed booking" :=
  reschedule_refuses_cancelled_failed dbC5w 1 600 660 bkCancelled rfl rfl

/-- C9 (counterexample): the Booking Lifecycle Manager's tracking-code lookup
and its cancel path match the stored code exactly; a query differing only in
letter case finds nothing. -/
theorem tracking_lookup_case_sensitivity_counterexample :
    dbC9.bookings.map (fun b => b.publicTrackingId) = ["BK-A1B2C3"] ∧
    get_booking_by_tracking_id dbC9 "bk-a1b2c3" = none ∧
    cancel_booking_by_tracking_id dbC9 "bk-a1b2c3" =
      .error "Booking not found: bk-a1b2c3" :=
  ⟨rfl, rfl, rfl⟩

/-- C9 (amended): only the public HTTP route uppercases the queried code
before the exact match, so that route finds a stored (uppercase-generated)
code from a query equal to it up to ASCII letter case. -/
theorem router_tracking_lookup_case_insensitive (db : DB) (q : String) (b : Booking)
    (hb : b ∈ db.bookings) (hq : pyUpper q = b.publicTrackingId) :
    ∃ bfound, router_get_booking_by_tracking_id db q = some bfound ∧
      bfound.publicTrackingId = b.publicTrackingId := by
  unfold router_get_booking_by_tracking_id
  have hsome : (db.bookings.find? (fun x => x.publicTrackingId == pyUpper q)).isSome := by
    rw [List.find?_isSome]
    exact ⟨b, hb, by simp [hq]⟩
  obtain ⟨bf, hbf⟩ := Option.isSome_iff_exists.mp hsome
  refine ⟨bf, hbf, ?_⟩
  have hpred := List.find?_some hbf
  simp only [beq_iff_eq] at hpred
  rw [hpred, hq]

/-- Witness for `router_tracking_lookup_case_insensitive`: the lowercase query
`bk-a1b2c3` finds the stored `BK-A1B2C3`. -/
theorem router_tracking_lookup_case_insensitive_witness :
    ∃ bfound, router_get_booking_by_tracking_id dbC9 "bk-a1b2c3" = some bfound ∧
      bfound.publicTrackingId = bkTracked.publicTrackingId :=
  router_tracking_lookup_case_insensitive dbC9 "bk-a1b2c3" bkTracked (by decide) rfl

/-- C8 (counterexample): right after `create_handoff` the conversation is
`RESOLVED`/`HUMAN_ESCALATED`, but processing one later non-escalation message
moves it back to `IN_PROGRESS` — the resolution is not terminal. -/
theorem escalation_resolution_not_terminal_counterexample :
    (dbC8afterHandoff.conversations.map fun c => (c.status, c.resolutionType, c.outcome)) =
        [("RESOLVED", some "HUMAN_ESCALATED", some "ESCALATED")] ∧
    ((update_conversation_after_turn dbC8afterHandoff 1 false).conversations.map
        fun c => c.status) = ["IN_PROGRESS"] :=
  ⟨rfl, rfl⟩

/-- C8 (amended): `create_handoff` does mark the owning conversation
`RESOLVED` with resolution type `HUMAN_ESCALATED` and outcome `ESCALATED` in
the same operation (the terminality half of the claim is what fails). -/
theorem create_handoff_resolves_conversation (db : DB) (biz conv : Nat)
    (reason : String) (cn cp ce : Option String) (bid : Option Nat) (pk : Nat)
    (ticket token : String) (c : Conversation)
    (hc : c ∈ (create_handoff db biz conv reason cn cp ce bid pk ticket token).1.conversations)
    (hid : c.id = conv) :
    c.status = "RESOLVED" ∧ c.resolutionType = some "HUMAN_ESCALATED" ∧
      c.outcome = some "ESCALATED" := by
  unfold create_handoff at hc
  simp only [List.mem_map] at hc
  obtain ⟨c0, hc0, heq⟩ := hc
  by_cases h : c0.id = conv
  · simp only [h, beq_self_eq_true, if_true] at heq
    rw [← heq]
    exact ⟨rfl, rfl, rfl⟩
  · simp only [beq_iff_eq, h, if_false] at heq
    rw [← heq] at hid
    exact absurd hid h

/-- Witness for `create_handoff_resolves_conversation` on the concrete store. -/
theorem create_handoff_resolves_conversation_witness :
    convResolved.status = "RESOLVED" ∧
    convResolved.resolutionType = some "HUMAN_ESCALATED" ∧
    convResolved.outcome = some "ESCALATED" :=
  create_handoff_resolves_conversation dbC8 1 1 "User requested human assistance"
    (some "Jane") none none none 7 "HO-AAAAAA" "tok" convResolved (by decide) rfl

/-- C1 (counterexample): a booking whose slot start is missing is nevertheless
set to `CONFIRMED` by the reconciliation step when the intent is
`confirm_booking` and the stored status is `CONTACT_COLLECTED` — and no
invalid-transition error is raised. -/
theorem confirm_without_slot_counterexample :
    dbC1.bookings.map (fun b => (b.status, b.slotStart)) = [("CONTACT_COLLECTED", none)] ∧
    (handle_booking_actions dbC1 1 1 oldStateC1 newStateC1 genA).map
        (fun r => r.1.bookings.map fun b => (b.status, b.slotStart)) =
      .ok [("CONFIRMED", none)] :=
  ⟨rfl, rfl⟩

/-- C2 (counterexample): the check-then-reserve sequence is not atomic.  In
the interleaving check₁ · check₂ · write₁ · write₂ of two conversations'
turns for the same (service 1, start 540), both availability checks read
`dbC2` and report the slot available (first conjunct), so per step 2 of the
reconciliation both turns proceed to their `update_slot` write; after both
writes the store holds two non-terminal bookings at the same exact
(service, start) pair. -/
theorem double_booking_race_counterexample :
    validate_and_reserve_slot dbC2 1 540 = .ok { available := true, alternatives := [] } ∧
    ((update_slot dbC2 1 540 600).bind fun dbA =>
        (update_slot dbA 2 540 600).map fun dbB =>
          (claimBlockingBookings dbB 1 540).length) = .ok 2 :=
  ⟨rfl, rfl⟩

/-- C6 (counterexample): the claim allows escalation with no contact fields at
all, but step 5 creates a handoff only when at least one contact field is
truthy — with none known, no `HandoffRequest` is created. -/
theorem escalation_without_contact_no_handoff_counterexample :
    newStateC6.needsEscalation = true ∧
    (handle_booking_actions dbC6 1 1 emptyState newStateC6 genA).map
        (fun r => r.1.handoffs.length) = .ok 0 :=
  ⟨rfl, rfl⟩


/-- `applyMentionedBookingId` never touches the escalation flag. -/
theorem needsEscalation_applyMentionedBookingId (st : ChatState) (e : Extraction) :
    (applyMentionedBookingId st e).needsEscalation = st.needsEscalation := by
  unfold applyMentionedBookingId
  split <;> rfl

/-- `applyWantsHuman` raises the escalation flag whenever `wants_human` is set. -/
theorem needsEscalation_applyWantsHuman (st : ChatState) (e : Extraction)
    (h : e.wantsHuman = true) : (applyWantsHuman st e).needsEscalation = true := by
  unfold applyWantsHuman
  rw [h]
  rfl

/-- C7: whenever the oracle sets `wants_human`, the parsed state routes to the
escalation node first — for every extracted intent value, the escalation
signal pre-empts the intent dispatch. -/
theorem escalation_preempts_intent (st : ChatState) (e : Extraction)
    (h : e.wantsHuman = true) :
    route_after_parse (apply_extraction st e) = "escalate_node" := by
  have hflag : (apply_extraction st e).needsEscalation = true := by
    unfold apply_extraction
    rw [needsEscalation_applyMentionedBookingId, needsEscalation_applyWantsHuman _ _ h]
  unfold route_after_parse
  rw [hflag]
  rfl

/-- Witness for `escalation_preempts_intent`: an extraction carrying intent
`cancel_booking` together with `wants_human` still routes to escalation. -/
theorem escalation_preempts_intent_witness :
    route_after_parse (apply_extraction emptyState extractionWantsHuman) = "escalate_node" :=
  escalation_preempts_intent emptyState extractionWantsHuman rfl

/-- Updating one booking row by primary key: any row of the result is either
an untouched original row or the updated image of the original row with the
targeted id. -/
theorem mapBooking_cases {db : DB} {bid : Nat} (g : Booking → Booking)
    (hg : ∀ x, (g x).id = x.id) (hdist : distinctBookingIds db = true)
    {b b' : Booking} (hb : b ∈ db.bookings)
    (hb' : b' ∈ (mapBooking db bid g).bookings) (hid : b'.id = b.id) :
    b' = b ∨ (b.id = bid ∧ b' = g b) := by
  unfold mapBooking at hb'
  simp only [List.mem_map] at hb'
  obtain ⟨c, hc, hfc⟩ := hb'
  by_cases hcb : c.id = bid
  · have hbc : b' = g c := by rw [← hfc]; simp [hcb]
    have hcid : c.id = b.id := by rw [← hid, hbc, hg]
    have hceq : c = b := eq_of_mem_of_distinct hdist hc hb hcid
    right
    exact ⟨by rw [← hceq]; exact hcb, by rw [hbc, hceq]⟩
  · have hbc : b' = c := by rw [← hfc]; simp [hcb]
    left
    rw [hbc]
    exact eq_of_mem_of_distinct hdist hc hb (by rw [← hbc, hid])

/-- Updating one booking row by primary key preserves the id column. -/
theorem mapBooking_ids {db : DB} {bid : Nat} (g : Booking → Booking)
    (hg : ∀ x, (g x).id = x.id) :
    ((mapBooking db bid g).bookings.map fun b => b.id) =
      db.bookings.map fun b => b.id := by
  unfold mapBooking
  simp only [List.map_map]
  refine List.map_congr_left fun c _ => ?_
  by_cases hcb : c.id = bid <;> simp [hcb, hg]

/-- Every original row keeps a same-id image in the updated table. -/
theorem mapBooking_mem {db : DB} (bid : Nat) (g : Booking → Booking)
    (hg : ∀ x, (g x).id = x.id) {b : Booking} (hb : b ∈ db.bookings) :
    ∃ bmid ∈ (mapBooking db bid g).bookings, bmid.id = b.id ∧
      (bmid = b ∨ bmid = g b) := by
  have hmem : (if b.id == bid then g b else b) ∈ (mapBooking db bid g).bookings :=
    List.mem_map_of_mem _ hb
  by_cases hcb : b.id = bid
  · refine ⟨g b, ?_, hg b, Or.inr rfl⟩
    simpa [hcb] using hmem
  · refine ⟨b, ?_, rfl, Or.inl rfl⟩
    simpa [hcb] using hmem


/-- Equal `ok`-wrapped pairs have equal components. -/
theorem okPairEq {dd d2 : DB} {ss s2 : ChatState}
    (hh : (Except.ok (dd, ss) : Except String (DB × ChatState)) = .ok (d2, s2)) :
    d2 = dd ∧ s2 = ss := by
  injection Except.ok.inj hh with h1 h2
  exact ⟨h1.symm, h2.symm⟩

/-- `confirm_booking` on a found row rewrites just that row's status. -/
theorem confirm_booking_of_found {db : DB} {bid : Nat} {b0 : Booking}
    (hf : findBookingById db bid = some b0) :
    confirm_booking db bid =
      .ok (mapBooking db bid fun x => { x with status := "CONFIRMED" }) := by
  unfold confirm_booking
  rw [hf]

/-- C1 (amended): a booking's status is moved to `CONFIRMED` by step 4 only
when either (a) the intent is `confirm_booking` and the stored status is
`CONTACT_COLLECTED` — a path that does not check the slot, so a slot-less
booking can be confirmed — or (b) the booking's slot and full contact triple
are present (the `complete_booking` and single-message paths; the service
reference is a non-nullable column and always present).  When neither guard
holds, the status is left unchanged, silently. -/
theorem step4_confirmation_guard (db : DB) (oldS newS : ChatState) (bid : Option Nat)
    (db' : DB) (st' : ChatState)
    (h : handle_step4 db oldS newS bid = .ok (db', st'))
    (hdist : distinctBookingIds db = true)
    (b b' : Booking) (hb : b ∈ db.bookings) (hb' : b' ∈ db'.bookings)
    (hid : b'.id = b.id) (hold : b.status ≠ "CONFIRMED") (hnew : b'.status = "CONFIRMED") :
    (newS.parsedIntent = "confirm_booking" ∧ b.status = "CONTACT_COLLECTED") ∨
    (b.slotStart.isSome = true ∧ truthyS b.customerName = true ∧
      truthyS b.customerPhone = true ∧ truthyS b.customerEmail = true) := by
  have hsame : db' = db → False := by
    intro hdb
    rw [hdb] at hb'
    have hbb := eq_of_mem_of_distinct hdist hb' hb hid
    rw [← hbb] at hold
    exact hold hnew
  cases bid with
  | none =>
    simp only [handle_step4] at h
    exact (hsame (okPairEq h).1).elim
  | some bId =>
    simp only [handle_step4] at h
    cases hgb : get_booking db bId with
    | none =>
      rw [hgb] at h
      exact (hsame (okPairEq h).1).elim
    | some booking =>
      simp only [hgb] at h
      have hfind : findBookingById db bId = some booking := hgb
      have hbookmem : booking ∈ db.bookings := List.mem_of_find?_eq_some hfind
      have hbookid : booking.id = bId := by simpa using List.find?_some hfind
      split at h
      next hcond =>
        rw [confirm_booking_of_found hfind] at h
        have hdb' : db' = mapBooking db bId fun x => { x with status := "CONFIRMED" } :=
          (okPairEq h).1
        rw [hdb'] at hb'
        rcases mapBooking_cases (fun x => { x with status := "CONFIRMED" })
            (fun _ => rfl) hdist hb hb' hid with heq | ⟨hbid, _⟩
        · rw [← heq] at hold
          exact absurd hnew hold
        · have hbookb : booking = b :=
            eq_of_mem_of_distinct hdist hbookmem hb (by rw [hbookid, hbid])
          rw [hbookb] at hcond
          simp only [Bool.and_eq_true, Bool.or_eq_true, beq_iff_eq, Bool.true_and,
            bne_iff_ne] at hcond
          tauto
      next => exact (hsame (okPairEq h).1).elim

/-- Witness for `step4_confirmation_guard`: the slot-less `CONTACT_COLLECTED`
booking confirmed through the `confirm_booking`-intent path. -/
theorem step4_confirmation_guard_witness :
    (newStateC1.parsedIntent = "confirm_booking" ∧
      bkContactNoSlot.status = "CONTACT_COLLECTED") ∨
    (bkContactNoSlot.slotStart.isSome = true ∧
      truthyS bkContactNoSlot.customerName = true ∧
      truthyS bkContactNoSlot.customerPhone = true ∧
      truthyS bkContactNoSlot.customerEmail = true) :=
  step4_confirmation_guard dbC1 oldStateC1 newStateC1 (some 1)
    (mapBooking dbC1 1 fun x => { x with status := "CONFIRMED" })
    { newStateC1 with bookingStatus := some "CONFIRMED" }
    rfl rfl bkContactNoSlot { bkContactNoSlot with status := "CONFIRMED" }
    (by decide) (by decide) rfl (by decide) rfl


/-- C6 (amended): step 5 creates a handoff exactly when the turn signalled
escalation, the conversation had none yet, and at least one contact field is
known (claim's "including none" fails: with no contact field, nothing is
created); when the old state already carries a handoff nothing is created, so
a conversation whose handoff count was at most one keeps it at most one. -/
theorem step5_handoff_spec (db : DB) (conv biz : Nat) (oldS newS : ChatState)
    (bid : Option Nat) (gen : Gen) (db' : DB) (st' : ChatState)
    (h : handle_step5 db conv biz oldS newS bid gen = (db', st')) :
    (oldS.handoffId.isSome = true → db'.handoffs = db.handoffs) ∧
    (newS.needsEscalation = false → db'.handoffs = db.handoffs) ∧
    ((truthyS (orT newS.customerName oldS.customerName) ||
      truthyS (orT newS.customerPhone oldS.customerPhone) ||
      truthyS (orT newS.customerEmail oldS.customerEmail)) = false →
        db'.handoffs = db.handoffs) ∧
    (newS.needsEscalation = true → oldS.handoffId = none →
      (truthyS (orT newS.customerName oldS.customerName) ||
       truthyS (orT newS.customerPhone oldS.customerPhone) ||
       truthyS (orT newS.customerEmail oldS.customerEmail)) = true →
        ∃ h0 : HandoffRequest, db'.handoffs = db.handoffs ++ [h0] ∧
          h0.conversationId = conv ∧ h0.status = "OPEN") ∧
    ((db.handoffs.filter fun x => x.conversationId == conv).length ≤ 1 →
     (oldS.handoffId.isSome = true ↔
        (db.handoffs.filter fun x => x.conversationId == conv) ≠ []) →
      (db'.handoffs.filter fun x => x.conversationId == conv).length ≤ 1) := by
  simp only [handle_step5] at h
  split at h
  next hcond =>
    simp only [Bool.and_eq_true, Bool.not_eq_true'] at hcond
    split at h
    next hcontact =>
      simp only [create_handoff] at h
      injection h with hdb' hst'
      rw [← hdb']
      refine ⟨?_, ?_, ?_, ?_, ?_⟩
      · intro hx
        rw [hx] at hcond
        exact absurd hcond.2 (by simp)
      · intro hx
        rw [hx] at hcond
        exact absurd hcond.1 (by simp)
      · intro hx
        rw [hx] at hcontact
        exact absurd hcontact (by simp)
      · intro _ _ _
        exact ⟨_, rfl, rfl, rfl⟩
      · intro _ hiff
        have hempty : (db.handoffs.filter fun x => x.conversationId == conv) = [] := by
          by_contra hne
          have := hiff.mpr hne
          rw [hcond.2] at this
          cases this
        simp [List.filter_append, hempty]
    next hcontact =>
      injection h with hdb' hst'
      rw [← hdb']
      exact ⟨fun _ => rfl, fun _ => rfl, fun _ => rfl,
        fun _ _ hx => absurd hx hcontact, fun hlen _ => hlen⟩
  next hcond =>
    injection h with hdb' hst'
    rw [← hdb']
    refine ⟨fun _ => rfl, fun _ => rfl, fun _ => rfl, ?_, fun hlen _ => hlen⟩
    intro hesc hnone _
    exact absurd (by simp [hesc, hnone] : (newS.needsEscalation && !oldS.handoffId.isSome) = true) hcond

/-- Witness for `step5_handoff_spec`: with escalation signalled, no existing
handoff, and one contact field known, exactly one handoff is appended. -/
theorem step5_handoff_spec_witness :
    ∃ h0 : HandoffRequest,
      (handle_step5 dbC6 1 1 emptyState newStateC6contact none genA).1.handoffs =
        dbC6.handoffs ++ [h0] ∧ h0.conversationId = 1 ∧ h0.status = "OPEN" :=
  (step5_handoff_spec dbC6 1 1 emptyState newStateC6contact none genA
      (handle_step5 dbC6 1 1 emptyState newStateC6contact none genA).1
      (handle_step5 dbC6 1 1 emptyState newStateC6contact none genA).2
      rfl).2.2.2.1 rfl rfl rfl


/-- `update_slot` success rewrites exactly the targeted row. -/
theorem update_slot_ok {db db1 : DB} {bid s e : Nat}
    (h : update_slot db bid s e = .ok db1) :
    db1 = mapBooking db bid fun x =>
      { x with slotStart := some s, slotEnd := some e, status := "SLOT_SELECTED" } := by
  unfold update_slot at h
  cases hf : findBookingById db bid with
  | none => simp only [hf] at h; cases h
  | some b0 => simp only [hf] at h; exact (Except.ok.inj h).symm

/-- `cancel_booking_by_tracking_id` success rewrites one row's status only. -/
theorem cancel_tracking_ok {db db1 : DB} {tid : String}
    (h : cancel_booking_by_tracking_id db tid = .ok db1) :
    ∃ bid, db1 = mapBooking db bid fun x => { x with status := "CANCELLED" } := by
  unfold cancel_booking_by_tracking_id at h
  cases hf : get_booking_by_tracking_id db tid with
  | none => simp only [hf] at h; cases h
  | some b0 =>
    simp only [hf] at h
    split at h
    · cases h
    · exact ⟨b0.id, (Except.ok.inj h).symm⟩

/-- `reschedule_booking_by_tracking_id` success rewrites one row's window. -/
theorem reschedule_tracking_ok {db db1 : DB} {tid : String} {s e : Nat}
    (h : reschedule_booking_by_tracking_id db tid s e = .ok db1) :
    ∃ bid, db1 = mapBooking db bid fun x =>
      { x with slotStart := some s, slotEnd := some e, status := "RESCHEDULED" } := by
  unfold reschedule_booking_by_tracking_id at h
  cases hf : get_booking_by_tracking_id db tid with
  | none => simp only [hf] at h; cases h
  | some b0 =>
    simp only [hf] at h
    unfold reschedule_booking at h
    cases hf2 : findBookingById db b0.id with
    | none => simp only [hf2] at h; cases h
    | some b1 =>
      simp only [hf2] at h
      split at h
      · cases h
      · exact ⟨b0.id, (Except.ok.inj h).symm⟩

/-- An unchanged store trivially satisfies `slotWrites60`. -/
theorem slotWrites60_refl {db : DB} (hdist : distinctBookingIds db = true) :
    slotWrites60 db db := by
  intro b hb b' hb' hid
  left
  have hbb := eq_of_mem_of_distinct hdist hb' hb hid
  rw [hbb]
  exact ⟨rfl, rfl⟩

/-- A single-row update satisfies `slotWrites60` when the update either keeps
the window or writes a start + 60 window. -/
theorem slotWrites60_mapBooking {db : DB} {bid : Nat} (g : Booking → Booking)
    (hg : ∀ x, (g x).id = x.id)
    (hslot : ∀ x, ((g x).slotStart = x.slotStart ∧ (g x).slotEnd = x.slotEnd) ∨
      ∃ s, (g x).slotStart = some s ∧ (g x).slotEnd = some (s + 60))
    (hdist : distinctBookingIds db = true) :
    slotWrites60 db (mapBooking db bid g) := by
  intro b hb b' hb' hid
  rcases mapBooking_cases g hg hdist hb hb' hid with heq | ⟨_, heq⟩
  · left
    rw [heq]
    exact ⟨rfl, rfl⟩
  · rw [heq]
    exact hslot b

/-- `slotWrites60` composes along phases that keep every row id present. -/
theorem slotWrites60_trans {db db1 db2 : DB}
    (hmem : ∀ b ∈ db.bookings, ∃ bmid ∈ db1.bookings, bmid.id = b.id)
    (h1 : slotWrites60 db db1) (h2 : slotWrites60 db1 db2) :
    slotWrites60 db db2 := by
  intro b hb b' hb' hid
  obtain ⟨bm, hbm, hbmid⟩ := hmem b hb
  rcases h2 bm hbm b' hb' (by rw [hid, hbmid]) with ⟨hs, he⟩ | hex
  · rcases h1 b hb bm hbm hbmid with ⟨hs1, he1⟩ | hex1
    · exact Or.inl ⟨hs.trans hs1, he.trans he1⟩
    · obtain ⟨s, hs1, he1⟩ := hex1
      exact Or.inr ⟨s, hs.trans hs1, he.trans he1⟩
  · exact Or.inr hex

/-- Single-row updates keep every row id present. -/
theorem mapBooking_memsurj {db : DB} (bid : Nat) (g : Booking → Booking)
    (hg : ∀ x, (g x).id = x.id) :
    ∀ b ∈ db.bookings, ∃ bmid ∈ (mapBooking db bid g).bookings, bmid.id = b.id := by
  intro b hb
  obtain ⟨bm, hbm, hbmid, _⟩ := mapBooking_mem bid g hg hb
  exact ⟨bm, hbm, hbmid⟩

/-- Single-row updates preserve distinctness of primary keys. -/
theorem distinct_mapBooking {db : DB} {bid : Nat} (g : Booking → Booking)
    (hg : ∀ x, (g x).id = x.id) (hdist : distinctBookingIds db = true) :
    distinctBookingIds (mapBooking db bid g) = true := by
  unfold distinctBookingIds
  rw [mapBooking_ids g hg]
  exact hdist

/-- The `confirm_cancel` branch never touches a slot window. -/
theorem handleConfirmCancel_effect {db db' : DB} {oldS newS st' : ChatState}
    (h : handleConfirmCancelIntent db oldS newS = (db', st'))
    (hdist : distinctBookingIds db = true) :
    slotWrites60 db db' ∧ distinctBookingIds db' = true ∧
      ∀ b ∈ db.bookings, ∃ bmid ∈ db'.bookings, bmid.id = b.id := by
  have base : db' = db →
      slotWrites60 db db' ∧ distinctBookingIds db' = true ∧
        ∀ b ∈ db.bookings, ∃ bmid ∈ db'.bookings, bmid.id = b.id := by
    intro hdb
    rw [hdb]
    exact ⟨slotWrites60_refl hdist, hdist, fun b hb => ⟨b, hb, rfl⟩⟩
  simp only [handleConfirmCancelIntent] at h
  split at h
  · split at h
    next =>
      split at h
      · exact base (Prod.mk.inj h).1.symm
      · split at h
        next db1 hcancel =>
          obtain ⟨bid, hdb1⟩ := cancel_tracking_ok hcancel
          have hdb' : db' = db1 := (Prod.mk.inj h).1.symm
          rw [hdb', hdb1]
          exact ⟨slotWrites60_mapBooking _ (fun _ => rfl) (fun x => Or.inl ⟨rfl, rfl⟩) hdist,
            distinct_mapBooking _ (fun _ => rfl) hdist,
            mapBooking_memsurj bid _ (fun _ => rfl)⟩
        next => exact base (Prod.mk.inj h).1.symm
    next => exact base (Prod.mk.inj h).1.symm
  · exact base (Prod.mk.inj h).1.symm

/-- The `reschedule` branch writes only start + 60 windows. -/
theorem handleReschedule_effect {db db' : DB} {oldS newS st' : ChatState}
    (h : handleRescheduleIntent db oldS newS = (db', st'))
    (hdist : distinctBookingIds db = true) :
    slotWrites60 db db' := by
  have base : db' = db → slotWrites60 db db' := by
    intro hdb
    rw [hdb]
    exact slotWrites60_refl hdist
  simp only [handleRescheduleIntent] at h
  split at h
  · cases hm : orT newS.mentionedBookingId oldS.mentionedBookingId with
    | none => simp only [hm] at h; exact base (Prod.mk.inj h).1.symm
    | some trackingId =>
      cases hss : newS.selectedSlotStart with
      | none => simp only [hm, hss] at h; exact base (Prod.mk.inj h).1.symm
      | some slotStart =>
        simp only [hm, hss] at h
        cases hres : reschedule_booking_by_tracking_id db trackingId slotStart (slotStart + 60) with
        | ok db1 =>
          simp only [hres] at h
          obtain ⟨bid, hdb1⟩ := reschedule_tracking_ok hres
          have hdb' : db' = db1 := (Prod.mk.inj h).1.symm
          rw [hdb', hdb1]
          exact slotWrites60_mapBooking _ (fun _ => rfl)
            (fun x => Or.inr ⟨slotStart, rfl, rfl⟩) hdist
        | error e => simp only [hres] at h; exact base (Prod.mk.inj h).1.symm
  · exact base (Prod.mk.inj h).1.symm

/-- C10: through both persistence paths of the conversation flow — the
per-turn slot-selection step (step 2 of `_handle_booking_actions`) and the
reschedule special-intent path — every slot window written to a booking is
exactly start + 60 minutes; the store (and with it every configured
`duration_minutes`) is universally quantified, so the service's configured
duration never influences the stored window. -/
theorem slot_end_hardcoded_60 :
    (∀ (db : DB) (oldS newS : ChatState) (bid : Option Nat) (db' : DB) (st' : ChatState),
      handle_step2 db oldS newS bid = .ok (db', st') →
      distinctBookingIds db = true → slotWrites60 db db') ∧
    (∀ (db : DB) (oldS newS : ChatState) (db' : DB) (st' : ChatState),
      handle_special_intents db oldS newS = (db', st') →
      distinctBookingIds db = true → slotWrites60 db db') := by
  constructor
  · intro db oldS newS bid db' st' h hdist
    have base : db' = db → slotWrites60 db db' := by
      intro hdb
      rw [hdb]
      exact slotWrites60_refl hdist
    cases hss : newS.selectedSlotStart with
    | none =>
      simp only [handle_step2, hss] at h
      exact base (okPairEq h).1
    | some slotStart =>
      simp only [handle_step2, hss] at h
      split at h
      · exact base (okPairEq h).1
      · cases hsvc : newS.selectedServiceId <|> oldS.selectedServiceId with
        | none =>
          simp only [hsvc] at h
          exact base (okPairEq h).1
        | some serviceId =>
          cases bid with
          | none =>
            simp only [hsvc] at h
            exact base (okPairEq h).1
          | some bId =>
            simp only [hsvc] at h
            cases hv : validate_and_reserve_slot db serviceId slotStart with
            | error e =>
              rw [hv] at h
              exact Except.noConfusion h
            | ok slotCheck =>
              rw [hv] at h
              simp only [bind, Except.bind] at h
              split at h
              · cases hupd : update_slot db bId slotStart (slotStart + 60) with
                | ok db1 =>
                  simp only [hupd] at h
                  have hdb1 := update_slot_ok hupd
                  have hdb' : db' = db1 := (okPairEq h).1
                  rw [hdb', hdb1]
                  exact slotWrites60_mapBooking _ (fun _ => rfl)
                    (fun x => Or.inr ⟨slotStart, rfl, rfl⟩) hdist
                | error e =>
                  simp only [hupd] at h
                  exact base (okPairEq h).1
              · exact base (okPairEq h).1
  · intro db oldS newS db' st' h hdist
    simp only [handle_special_intents] at h
    have hr : handleConfirmCancelIntent db oldS newS =
        ((handleConfirmCancelIntent db oldS newS).1,
          (handleConfirmCancelIntent db oldS newS).2) := rfl
    obtain ⟨hw1, hd1, hm1⟩ := handleConfirmCancel_effect hr hdist
    exact slotWrites60_trans hm1 hw1 (handleReschedule_effect h hd1)

/-- Witness for `slot_end_hardcoded_60`: selecting the 13:00 slot stores the
window 13:00-14:00 even though the catalogued duration could be anything. -/
theorem slot_end_hardcoded_60_witness :
    slotWrites60 dbC10
      (mapBooking dbC10 1 fun x =>
        { x with slotStart := some 780, slotEnd := some 840, status := "SLOT_SELECTED" }) :=
  slot_end_hardcoded_60.1 dbC10 emptyState newStateC10 (some 1)
    (mapBooking dbC10 1 fun x =>
      { x with slotStart := some 780, slotEnd := some 840, status := "SLOT_SELECTED" })
    { newStateC10 with bookingStatus := some "SLOT_SELECTED" }
    rfl rfl


/-- `noDoubleBooking` says exactly that every (service, start) pair carries at
most one non-terminal booking. -/
theorem noDoubleBooking_iff (db : DB) :
    noDoubleBooking db = true ↔
      ∀ svc s, (slotBookings db svc s).length ≤ 1 := by
  constructor
  · intro hall svc s
    by_contra hlt
    push_neg at hlt
    have hne : slotBookings db svc s ≠ [] := by
      intro he
      rw [he] at hlt
      simp at hlt
    obtain ⟨b, hb⟩ := List.exists_mem_of_ne_nil _ hne
    have hbmem : b ∈ db.bookings := List.mem_of_mem_filter hb
    have hbp := List.of_mem_filter hb
    simp only [Bool.and_eq_true, beq_iff_eq] at hbp
    unfold noDoubleBooking at hall
    rw [List.all_eq_true] at hall
    have hone := hall b hbmem
    rw [hbp.1.2] at hone
    simp only [decide_eq_true_eq] at hone
    rw [hbp.1.1] at hone
    exact absurd hone (by omega)
  · intro hall
    unfold noDoubleBooking
    rw [List.all_eq_true]
    intro b hb
    cases hsb : b.slotStart with
    | none => rfl
    | some s => simpa using hall b.serviceId s

/-- A conflict-free `validate_and_reserve_slot` verdict means the non-terminal
bookings at that exact (service, start) pair were empty when it looked. -/
theorem validate_ok_available_empty {db : DB} {svc s : Nat} {r : ReserveResult}
    (h : validate_and_reserve_slot db svc s = .ok r) (ha : r.available = true) :
    slotBookings db svc s = [] := by
  cases hl : slotBookings db svc s with
  | nil => rfl
  | cons a tl =>
    exfalso
    unfold validate_and_reserve_slot check_slot_available at h
    rw [hl] at h
    cases tl with
    | cons b tl2 =>
      simp only [scalarOneOrNone, bind, Except.bind] at h
      exact Except.noConfusion h
    | nil =>
      simp only [scalarOneOrNone, bind, Except.bind, pure, Except.pure,
        Option.isNone] at h
      cases hfind : db.services.find? (fun x => x.id == svc) with
      | none =>
        simp only [hfind] at h
        have hr := Except.ok.inj h
        rw [← hr] at ha
        simp at ha
      | some svc0 =>
        simp only [hfind] at h
        cases halt : get_alternative_slots db svc0.businessId svc s 5 with
        | error e =>
          rw [halt] at h
          exact Except.noConfusion h
        | ok alts =>
          rw [halt] at h
          simp only [bind, Except.bind, pure, Except.pure] at h
          have hr := Except.ok.inj h
          rw [← hr] at ha
          simp at ha

/-- A successful `update_slot` found its row. -/
theorem update_slot_found {db db1 : DB} {bid s e : Nat}
    (h : update_slot db bid s e = .ok db1) :
    ∃ b0 ∈ db.bookings, b0.id = bid := by
  unfold update_slot at h
  cases hf : findBookingById db bid with
  | none => simp only [hf] at h; cases h
  | some b0 => exact ⟨b0, List.mem_of_find?_eq_some hf, by simpa using List.find?_some hf⟩

/-- A one-row update whose target id is absent leaves the table unchanged. -/
theorem map_update_id {l : List Booking} {bid : Nat} {g : Booking → Booking}
    (hl : ∀ c ∈ l, (c.id == bid) = false) :
    l.map (fun x => if x.id == bid then g x else x) = l := by
  induction l with
  | nil => rfl
  | cons x xs ih =>
    have h1 := hl x (List.mem_cons_self x xs)
    simp only [List.map_cons, h1, Bool.false_eq_true, if_false]
    rw [ih fun c hc => hl c (List.mem_cons_of_mem x hc)]

/-- Bookkeeping for a one-row update: the `countP` of the updated table and of
the original differ exactly by swapping the updated row's contribution. -/
theorem countP_map_update {l : List Booking} {bid : Nat} (g : Booking → Booking)
    (q : Booking → Bool) (hdist : distinctIdList (l.map fun b => b.id) = true)
    {bstar : Booking} (hb : bstar ∈ l) (hid : bstar.id = bid) :
    (l.map fun x => if x.id == bid then g x else x).countP q +
        (if q bstar then 1 else 0) =
      l.countP q + (if q (g bstar) then 1 else 0) := by
  induction l with
  | nil => cases hb
  | cons x xs ih =>
    simp only [List.map_cons, distinctIdList, Bool.and_eq_true, List.all_eq_true] at hdist
    rcases List.mem_cons.mp hb with rfl | hbx
    · have hxs : ∀ c ∈ xs, (c.id == bid) = false := by
        intro c hc
        have hcx := hdist.1 c.id (List.mem_map_of_mem (fun b => b.id) hc)
        simp only [bne_iff_ne, ne_eq] at hcx
        simp [← hid, hcx]
      rw [List.map_cons, map_update_id hxs]
      simp only [hid, beq_self_eq_true, if_true, List.countP_cons]
      by_cases hq1 : q bstar <;> by_cases hq2 : q (g bstar) <;> simp [hq1, hq2]
    · have hxid : x.id ≠ bid := by
        have hcx := hdist.1 bstar.id (List.mem_map_of_mem (fun b => b.id) hbx)
        simp only [bne_iff_ne, ne_eq] at hcx
        exact fun hxeq => hcx (by rw [hid, ← hxeq])
      have hih := ih hdist.2 hbx
      have hxbeq : (x.id == bid) = false := by simpa using hxid
      simp only [List.map_cons, List.countP_cons, hxbeq, Bool.false_eq_true, if_false]
      omega

/-- `countP_map_update`, phrased on `mapBooking`. -/
theorem countP_mapBooking (db : DB) (bid : Nat) (g : Booking → Booking)
    (q : Booking → Bool) (hdist : distinctBookingIds db = true)
    {bstar : Booking} (hb : bstar ∈ db.bookings) (hid : bstar.id = bid) :
    (mapBooking db bid g).bookings.countP q + (if q bstar then 1 else 0) =
      db.bookings.countP q + (if q (g bstar) then 1 else 0) :=
  countP_map_update g q hdist hb hid

/-- C2 (amended): within one sequential turn, the step-2 check-then-reserve
keeps the no-double-booking invariant, provided the availability check's
service parameter is the updated booking's own service (the parameter comes
from the conversation state and the code never re-checks it against the
booking row) and primary keys are distinct.  The concurrency half of the
claim fails: see the interleaving counterexample. -/
theorem step2_preserves_no_double_booking (db : DB) (oldS newS : ChatState)
    (bid : Option Nat) (db' : DB) (st' : ChatState)
    (h : handle_step2 db oldS newS bid = .ok (db', st'))
    (hdist : distinctBookingIds db = true)
    (hsvc : ∀ b ∈ db.bookings, bid = some b.id →
      (newS.selectedServiceId <|> oldS.selectedServiceId) = some b.serviceId)
    (hinv : noDoubleBooking db = true) :
    noDoubleBooking db' = true := by
  have base : db' = db → noDoubleBooking db' = true := by
    intro hdb
    rw [hdb]
    exact hinv
  cases hss : newS.selectedSlotStart with
  | none =>
    simp only [handle_step2, hss] at h
    exact base (okPairEq h).1
  | some slotStart =>
    simp only [handle_step2, hss] at h
    split at h
    · exact base (okPairEq h).1
    · cases hsvcv : newS.selectedServiceId <|> oldS.selectedServiceId with
      | none =>
        simp only [hsvcv] at h
        exact base (okPairEq h).1
      | some serviceId =>
        cases bid with
        | none =>
          simp only [hsvcv] at h
          exact base (okPairEq h).1
        | some bId =>
          simp only [hsvcv] at h
          cases hv : validate_and_reserve_slot db serviceId slotStart with
          | error e =>
            rw [hv] at h
            exact Except.noConfusion h
          | ok slotCheck =>
            rw [hv] at h
            simp only [bind, Except.bind] at h
            split at h
            next havail =>
              cases hupd : update_slot db bId slotStart (slotStart + 60) with
              | error e =>
                simp only [hupd] at h
                exact base (okPairEq h).1
              | ok db1 =>
                simp only [hupd] at h
                have hdb1 := update_slot_ok hupd
                have hdb' : db' = db1 := (okPairEq h).1
                obtain ⟨b0, hb0, hb0id⟩ := update_slot_found hupd
                have hempty : slotBookings db serviceId slotStart = [] :=
                  validate_ok_available_empty hv havail
                have hb0svc : serviceId = b0.serviceId := by
                  have := hsvc b0 hb0 (by rw [hb0id])
                  rw [hsvcv] at this
                  exact Option.some.inj this
                rw [hdb', hdb1]
                rw [noDoubleBooking_iff]
                intro svc0 s0
                have hlen : ∀ dbx : DB, (slotBookings dbx svc0 s0).length =
                    dbx.bookings.countP (fun b => b.serviceId == svc0 &&
                      b.slotStart == some s0 && !(terminalStatuses.contains b.status)) := by
                  intro dbx
                  rw [List.countP_eq_length_filter]
                  rfl
                have hcnt := countP_mapBooking db bId
                  (fun x =>
                    { x with
                        slotStart := some slotStart,
                        slotEnd := some (slotStart + 60),
                        status := "SLOT_SELECTED" })
                  (fun b => b.serviceId == svc0 && b.slotStart == some s0 &&
                    !(terminalStatuses.contains b.status))
                  hdist hb0 hb0id
                simp only [] at hcnt
                rw [hlen]
                by_cases hpair : svc0 = serviceId ∧ s0 = slotStart
                · obtain ⟨rfl, rfl⟩ := hpair
                  have hcnt0 : db.bookings.countP (fun b => b.serviceId == svc0 &&
                      b.slotStart == some s0 && !(terminalStatuses.contains b.status)) = 0 := by
                    have hl0 := hlen db
                    rw [hempty] at hl0
                    simpa using hl0.symm
                  have hq0 : (b0.serviceId == svc0 && b0.slotStart == some s0 &&
                      !(terminalStatuses.contains b0.status)) = false := by
                    by_contra hq
                    rw [Bool.not_eq_false] at hq
                    have hmem0 : b0 ∈ slotBookings db svc0 s0 :=
                      List.mem_filter.mpr ⟨hb0, hq⟩
                    rw [hempty] at hmem0
                    cases hmem0
                  have hq1 : (b0.serviceId == svc0 && some s0 == some s0 &&
                      !(terminalStatuses.contains "SLOT_SELECTED")) = true := by
                    rw [← hb0svc]
                    simp [terminalStatuses]
                  simp only [hq0, hq1, Bool.false_eq_true, eq_self_iff_true, if_false,
                    if_true, hcnt0] at hcnt
                  omega
                · have hq1 : (b0.serviceId == svc0 && some slotStart == some s0 &&
                      !(terminalStatuses.contains "SLOT_SELECTED")) = false := by
                    rcases not_and_or.mp hpair with hne | hne
                    · have hsvne : (b0.serviceId == svc0) = false := by
                        rw [← hb0svc]
                        simp
                        exact fun hx => hne hx.symm
                      simp [hsvne]
                    · have hsne : ((some slotStart : Option Nat) == some s0) = false := by
                        simp
                        exact fun hx => hne hx.symm
                      simp [hsne]
                  have hle := (noDoubleBooking_iff db).mp hinv svc0 s0
                  rw [hlen db] at hle
                  simp only [hq1, Bool.false_eq_true, if_false] at hcnt
                  omega
            next => exact base (okPairEq h).1

/-- Witness for `step2_preserves_no_double_booking`: reserving 13:00 on the
single-booking store keeps every (service, start) pair singly booked. -/
theorem step2_preserves_no_double_booking_witness :
    noDoubleBooking
      (mapBooking dbC10 1 fun x =>
        { x with slotStart := some 780, slotEnd := some 840, status := "SLOT_SELECTED" }) =
      true :=
  step2_preserves_no_double_booking dbC10 emptyState newStateC10 (some 1)
    (mapBooking dbC10 1 fun x =>
      { x with slotStart := some 780, slotEnd := some 840, status := "SLOT_SELECTED" })
    { newStateC10 with bookingStatus := some "SLOT_SELECTED" }
    rfl rfl (by decide) rfl


/-- `scalar_one_or_none` on a single-valued query returns its head. -/
theorem scalarOneOrNone_of_len_le_one {l : List α} (hl : l.length ≤ 1) :
    scalarOneOrNone l = .ok l.head? := by
  cases l with
  | nil => rfl
  | cons a tl =>
    cases tl with
    | nil => rfl
    | cons b tl2 => simp at hl

/-- The slot-generation loop in closed form: starting at `cur`, it lays
`(close - cur) / dur` consecutive windows of width `dur`. -/
theorem genSlotsAux_eq (dur : Nat) (hdur : 0 < dur) :
    ∀ fuel cur close, (close - cur) / dur ≤ fuel →
      genSlotsAux fuel cur close dur =
        (List.range ((close - cur) / dur)).map fun k =>
          (cur + dur * k, cur + dur * (k + 1)) := by
  intro fuel
  induction fuel with
  | zero =>
    intro cur close hle
    rw [Nat.le_zero.mp hle]
    rfl
  | succ n ih =>
    intro cur close hle
    by_cases hc : cur + dur ≤ close
    · have hsub : close - cur - dur = close - (cur + dur) := by omega
      have hN : (close - cur) / dur = (close - (cur + dur)) / dur + 1 := by
        rw [Nat.div_eq_sub_div hdur (by omega), hsub]
      have hrec := ih (cur + dur) close (by omega)
      simp only [genSlotsAux, hc, if_true, hrec, hN, List.range_succ_eq_map,
        List.map_cons, List.map_map]
      rw [show cur + dur * 0 = cur from by ring,
        show cur + dur * (0 + 1) = cur + dur from by ring]
      congr 1
      refine List.map_congr_left fun k _ => ?_
      simp only [Function.comp_apply]
      rw [Prod.mk.injEq]
      constructor <;> simp only [Nat.succ_eq_add_one] <;> ring
    · have hz : (close - cur) / dur = 0 := Nat.div_eq_of_lt (by omega)
      simp [genSlotsAux, hc, hz]

/-- `genSlots` (fuel `close + 1`) computes the closed form: the fuel bounds
the iteration count `(close - cur) / dur ≤ close - cur ≤ close + 1`. -/
theorem genSlots_eq (cur close dur : Nat) (hdur : 0 < dur) :
    genSlots cur close dur = consecutiveWindows cur close dur := by
  unfold genSlots consecutiveWindows
  exact genSlotsAux_eq dur hdur (close + 1) cur close
    (le_trans (Nat.div_le_self _ _) (by omega))

/-- The head of a list is absent exactly when the list is empty. -/
theorem head?_isNone_iff {l : List α} : l.head?.isNone = l.isEmpty := by
  cases l <;> rfl

/-- The availability filter, under single-valued booking queries, is the pure
filter by "no non-terminal booking at the window's start". -/
theorem filterAvailable_eq (db : DB) (svc : Nat) (l : List (Nat × Nat))
    (hl : ∀ w ∈ l, (slotBookings db svc w.1).length ≤ 1) :
    filterAvailable db svc l =
      .ok (l.filter fun w => (slotBookings db svc w.1).isEmpty) := by
  induction l with
  | nil => rfl
  | cons w rest ih =>
    have hw := hl w (List.mem_cons_self w rest)
    have hrest := ih fun x hx => hl x (List.mem_cons_of_mem _ hx)
    simp only [filterAvailable, check_slot_available,
      scalarOneOrNone_of_len_le_one hw, hrest, bind, Except.bind, pure,
      Except.pure, List.filter_cons, head?_isNone_iff]

/-- Under `noCanceledSpelling`, the source's four-status terminal filter and
the claims' three-status one pick the same rows. -/
theorem slotBookings_eq_claim (db : DB) (hnc : noCanceledSpelling db = true)
    (svc s : Nat) : slotBookings db svc s = claimBlockingBookings db svc s := by
  unfold slotBookings claimBlockingBookings
  refine List.filter_congr fun b hb => ?_
  have hbnc : (b.status == "CANCELED") = false := by
    unfold noCanceledSpelling at hnc
    rw [List.all_eq_true] at hnc
    simpa using hnc b hb
  simp only [terminalStatuses, claimTerminalStatuses, List.contains_cons, hbnc]
  simp

/-- `get_available_slots` with the default 60-minute duration, characterised
under single-valued queries. -/
theorem get_available_slots_eq (db : DB) (biz svc d : Nat)
    (hwf : availQueriesOk db biz svc d = true) :
    get_available_slots db biz svc d 60 = .ok (availListSpec db biz svc d) := by
  unfold availQueriesOk at hwf
  simp only [Bool.and_eq_true, decide_eq_true_eq, List.all_eq_true] at hwf
  obtain ⟨⟨hh1, hh2⟩, hh3⟩ := hwf
  unfold get_available_slots availListSpec
  simp only []
  rw [scalarOneOrNone_of_len_le_one hh1]
  simp only [bind, Except.bind]
  cases hh : (hoursRows db biz (d % 7)).head? with
  | none => rfl
  | some oh =>
    cases hcl : oh.isClosed with
    | true => simp [hcl, pure, Except.pure]
    | false =>
      simp only [hcl, Bool.false_eq_true, if_false]
      cases hot : oh.openTime with
      | none => rfl
      | some openT =>
        cases hct : oh.closeTime with
        | none => rfl
        | some closeT =>
          rw [scalarOneOrNone_of_len_le_one hh2]
          simp only [bind, Except.bind, head?_isNone_iff]
          cases hcr : closureRows db biz d with
          | cons e rest => simp [pure, Except.pure]
          | nil =>
            simp only [List.isEmpty_nil, Bool.not_true, if_false]
            have hbound : ∀ w ∈ genSlots (d * 1440 + openT) (d * 1440 + closeT) 60,
                (slotBookings db svc w.1).length ≤ 1 := by
              intro w hw
              apply hh3
              unfold windowStartsForDate
              rw [hh]
              simp only [hcl, Bool.false_eq_true, if_false, hot, hct]
              exact List.mem_map_of_mem Prod.fst hw
            rw [filterAvailable_eq db svc _ hbound]
            simp

/-- C3: listing available slots returns the empty list when the weekday's
hours row is missing or marked closed, or when a `CLOSED` exception overlaps
the date; otherwise it returns exactly the consecutive 60-minute windows laid
from open to close that carry no non-terminal booking at the window's exact
start instant.  The hypotheses say the store is well-formed: each
`scalar_one_or_none` query is single-valued and the never-written alternate
status spelling `CANCELED` is absent. -/
theorem get_available_slots_spec (db : DB) (biz svc d : Nat)
    (hwf : availQueriesOk db biz svc d = true)
    (hnc : noCanceledSpelling db = true) :
    ((hoursRows db biz (d % 7)).head? = none →
      get_available_slots db biz svc d 60 = .ok []) ∧
    (∀ oh, (hoursRows db biz (d % 7)).head? = some oh → oh.isClosed = true →
      get_available_slots db biz svc d 60 = .ok []) ∧
    (∀ oh, (hoursRows db biz (d % 7)).head? = some oh → oh.isClosed = false →
      closureRows db biz d ≠ [] →
      get_available_slots db biz svc d 60 = .ok []) ∧
    (∀ oh openT closeT, (hoursRows db biz (d % 7)).head? = some oh →
      oh.isClosed = false → oh.openTime = some openT → oh.closeTime = some closeT →
      closureRows db biz d = [] →
      get_available_slots db biz svc d 60 =
        .ok ((consecutiveWindows (d * 1440 + openT) (d * 1440 + closeT) 60).filter
          (claimAvailable db svc))) := by
  rw [get_available_slots_eq db biz svc d hwf]
  refine ⟨?_, ?_, ?_, ?_⟩
  · intro hh
    unfold availListSpec
    rw [hh]
  · intro oh hh hcl
    unfold availListSpec
    rw [hh]
    simp [hcl]
  · intro oh hh hcl hcr
    unfold availListSpec
    rw [hh]
    simp only [hcl, Bool.false_eq_true, if_false]
    cases hot : oh.openTime with
    | none => rfl
    | some openT =>
      cases hct : oh.closeTime with
      | none => rfl
      | some closeT =>
        have : (closureRows db biz d).isEmpty = false := by
          cases hx : closureRows db biz d with
          | nil => exact absurd hx hcr
          | cons e rest => rfl
        simp [this]
  · intro oh openT closeT hh hcl hot hct hcr
    unfold availListSpec
    rw [hh]
    simp only [hcl, Bool.false_eq_true, if_false, hot, hct, hcr,
      List.isEmpty_nil, if_true]
    rw [genSlots_eq _ _ 60 (by omega)]
    congr 1
    refine List.filter_congr fun w _ => ?_
    unfold claimAvailable
    rw [slotBookings_eq_claim db hnc]

/-- Witness for `get_available_slots_spec`: the demo-salon Monday (hours
09:00-18:00, one confirmed booking at 10:00) lists exactly the 8 windows
09:00..17:00 other than 10:00. -/
theorem get_available_slots_spec_witness :
    get_available_slots dbC3 1 1 0 60 =
      .ok [(540, 600), (660, 720), (720, 780), (780, 840), (840, 900),
        (900, 960), (960, 1020), (1020, 1080)] := by
  have h := (get_available_slots_spec dbC3 1 1 0 (by decide) (by decide)).2.2.2
    mondayHours 540 1080 rfl rfl rfl rfl rfl
  rw [h]
  rfl


/-- Membership through stable insertion. -/
theorem mem_insertByDistance {req : Nat} {x a : Nat × Nat} {l : List (Nat × Nat)} :
    a ∈ insertByDistance req x l ↔ a = x ∨ a ∈ l := by
  induction l with
  | nil => simp [insertByDistance]
  | cons y ys ih =>
    unfold insertByDistance
    split
    · simp [List.mem_cons]
    · simp only [List.mem_cons, ih]
      tauto

/-- The stable sort permutes nothing in or out. -/
theorem mem_sortByDistance {req : Nat} {a : Nat × Nat} {l : List (Nat × Nat)} :
    a ∈ sortByDistance req l ↔ a ∈ l := by
  induction l with
  | nil => simp [sortByDistance]
  | cons x xs ih => simp [sortByDistance, mem_insertByDistance, ih]

/-- Insertion keeps the list sorted by distance to the request. -/
theorem pairwise_insertByDistance (req : Nat) (x : Nat × Nat) (l : List (Nat × Nat))
    (hl : l.Pairwise fun a b => timeDistance req a ≤ timeDistance req b) :
    (insertByDistance req x l).Pairwise
      fun a b => timeDistance req a ≤ timeDistance req b := by
  induction l with
  | nil => simp [insertByDistance]
  | cons y ys ih =>
    rw [List.pairwise_cons] at hl
    unfold insertByDistance
    split
    next hxy =>
      rw [List.pairwise_cons]
      refine ⟨?_, ?_⟩
      · intro z hz
        rcases List.mem_cons.mp hz with rfl | hz'
        · exact hxy
        · exact le_trans hxy (hl.1 z hz')
      · rw [List.pairwise_cons]
        exact hl
    next hxy =>
      rw [List.pairwise_cons]
      refine ⟨?_, ih hl.2⟩
      intro z hz
      rcases mem_insertByDistance.mp hz with rfl | hz'
      · exact le_of_not_le hxy
      · exact hl.1 z hz'

/-- The sort is sorted by absolute distance to the requested instant. -/
theorem pairwise_sortByDistance (req : Nat) (l : List (Nat × Nat)) :
    (sortByDistance req l).Pairwise
      fun a b => timeDistance req a ≤ timeDistance req b := by
  induction l with
  | nil => simp [sortByDistance]
  | cons x xs ih => exact pairwise_insertByDistance req x _ ih

/-- Every generated window starts at or after the loop's starting instant. -/
theorem genSlotsAux_start_le {fuel cur close dur : Nat} {w : Nat × Nat}
    (hw : w ∈ genSlotsAux fuel cur close dur) : cur ≤ w.1 := by
  induction fuel generalizing cur with
  | zero => cases hw
  | succ n ih =>
    unfold genSlotsAux at hw
    split at hw
    · rcases List.mem_cons.mp hw with rfl | hw'
      · simp
      · exact le_trans (by omega) (ih hw')
    · cases hw

/-- A listed available window starts within its date and is free of
non-terminal bookings at its start. -/
theorem mem_availListSpec {db : DB} {biz svc D : Nat} {w : Nat × Nat}
    (hw : w ∈ availListSpec db biz svc D) :
    D * 1440 ≤ w.1 ∧ slotBookings db svc w.1 = [] := by
  unfold availListSpec at hw
  cases hh : (hoursRows db biz (D % 7)).head? with
  | none => simp only [hh] at hw; cases hw
  | some oh =>
    simp only [hh] at hw
    split at hw
    · cases hw
    · cases hot : oh.openTime with
      | none => simp only [hot] at hw; cases hw
      | some openT =>
        cases hct : oh.closeTime with
        | none => simp only [hot, hct] at hw; cases hw
        | some closeT =>
          simp only [hot, hct] at hw
          split at hw
          · have hmemgen := List.mem_of_mem_filter hw
            have hpred := List.of_mem_filter hw
            refine ⟨le_trans (by omega) (genSlotsAux_start_le hmemgen), ?_⟩
            simpa using hpred
          · cases hw

/-- C4: a reservation request for a taken slot answers `available = false`
with at most 5 alternatives drawn from the remaining available windows of the
requested date (extended with the following date only when fewer than 5 were
found), sorted by absolute time-distance to the requested start, and never
containing the requested instant itself. -/
theorem validate_and_reserve_conflict_spec (db : DB) (svcId start : Nat)
    (svc : Service)
    (hfind : db.services.find? (fun x => x.id == svcId) = some svc)
    (hconf : (slotBookings db svcId start).length = 1)
    (hwf1 : availQueriesOk db svc.businessId svcId (start / 1440) = true)
    (hwf2 : availQueriesOk db svc.businessId svcId (start / 1440 + 1) = true) :
    ∃ alts sameDay nextDay,
      validate_and_reserve_slot db svcId start =
        .ok { available := false, alternatives := alts } ∧
      get_available_slots db svc.businessId svcId (start / 1440) 60 = .ok sameDay ∧
      get_available_slots db svc.businessId svcId (start / 1440 + 1) 60 = .ok nextDay ∧
      alts.length ≤ 5 ∧
      alts.Pairwise (fun a b => timeDistance start a ≤ timeDistance start b) ∧
      (∀ a ∈ alts, (a ∈ sameDay ∨ a ∈ nextDay) ∧ a.1 ≠ start) ∧
      (5 ≤ sameDay.length → ∀ a ∈ alts, a ∈ sameDay) := by
  have hS := get_available_slots_eq db svc.businessId svcId (start / 1440) hwf1
  have hT := get_available_slots_eq db svc.businessId svcId (start / 1440 + 1) hwf2
  obtain ⟨a0, ha0⟩ := List.length_eq_one.mp hconf
  have hcheck : check_slot_available db svcId start = .ok false := by
    unfold check_slot_available
    rw [ha0]
    rfl
  have hpool : ∃ pool, get_alternative_slots db svc.businessId svcId start 5 =
      .ok ((sortByDistance start pool).take 5) ∧
      (∀ a ∈ pool, a ∈ availListSpec db svc.businessId svcId (start / 1440) ∨
        a ∈ availListSpec db svc.businessId svcId (start / 1440 + 1)) ∧
      (5 ≤ (availListSpec db svc.businessId svcId (start / 1440)).length →
        ∀ a ∈ pool, a ∈ availListSpec db svc.businessId svcId (start / 1440)) := by
    unfold get_alternative_slots
    simp only []
    rw [hS]
    simp only [bind, Except.bind]
    by_cases hlen : (availListSpec db svc.businessId svcId (start / 1440)).length < 5
    · rw [if_pos hlen, hT]
      refine ⟨availListSpec db svc.businessId svcId (start / 1440) ++
        availListSpec db svc.businessId svcId (start / 1440 + 1), rfl, ?_, ?_⟩
      · intro a ha
        exact List.mem_append.mp ha
      · intro h5
        omega
    · rw [if_neg hlen]
      exact ⟨availListSpec db svc.businessId svcId (start / 1440), rfl,
        fun a ha => Or.inl ha, fun _ a ha => ha⟩
  obtain ⟨pool, hpe, hps, hp5⟩ := hpool
  refine ⟨(sortByDistance start pool).take 5,
    availListSpec db svc.businessId svcId (start / 1440),
    availListSpec db svc.businessId svcId (start / 1440 + 1),
    ?_, hS, hT, ?_, ?_, ?_, ?_⟩
  · unfold validate_and_reserve_slot
    rw [hcheck]
    simp only [bind, Except.bind, Bool.false_eq_true, if_false, hfind, hpe,
      pure, Except.pure]
  · exact List.length_take_le 5 _
  · exact List.Pairwise.sublist (List.take_sublist 5 _)
      (pairwise_sortByDistance start pool)
  · intro a ha
    have hpm : a ∈ pool := mem_sortByDistance.mp (List.mem_of_mem_take ha)
    refine ⟨hps a hpm, ?_⟩
    rcases hps a hpm with hin | hin
    · have hfree := (mem_availListSpec hin).2
      intro hEq
      rw [hEq] at hfree
      rw [hfree] at hconf
      simp at hconf
    · have hge := (mem_availListSpec hin).1
      have hmod := Nat.div_add_mod start 1440
      have hlt : start % 1440 < 1440 := Nat.mod_lt _ (by omega)
      intro hEq
      omega
  · intro h5 a ha
    exact hp5 h5 a (mem_sortByDistance.mp (List.mem_of_mem_take ha))

/-- Witness for `validate_and_reserve_conflict_spec`: requesting the taken
09:00 slot of the demo store is refused with ranked alternatives. -/
theorem validate_and_reserve_conflict_spec_witness :
    ∃ alts sameDay nextDay,
      validate_and_reserve_slot dbC4 1 540 =
        .ok { available := false, alternatives := alts } ∧
      get_available_slots dbC4 svcHaircut.businessId 1 (540 / 1440) 60 = .ok sameDay ∧
      get_available_slots dbC4 svcHaircut.businessId 1 (540 / 1440 + 1) 60 = .ok nextDay ∧
      alts.length ≤ 5 ∧
      alts.Pairwise (fun a b => timeDistance 540 a ≤ timeDistance 540 b) ∧
      (∀ a ∈ alts, (a ∈ sameDay ∨ a ∈ nextDay) ∧ a.1 ≠ 540) ∧
      (5 ≤ sameDay.length → ∀ a ∈ alts, a ∈ sameDay) :=
  validate_and_reserve_conflict_spec dbC4 1 540 svcHaircut rfl rfl
    (by decide) (by decide)

end App
